import Mathlib

/-!
# PulseOut: the PulseAudio output sink of musikcube

A shallow embedding of `src/contrib/pulseout/PulseOut.cpp`.

* Pointers are natural numbers; a nullable handle is an `Option`.
* Every call into the PulseAudio client library is recorded as an `Event`, in
  program order, together with the answer the library gave.  The answers are
  not computed here: each operation takes them from an environment record, so
  a theorem quantified over the environment holds for every behaviour of the
  server.
* Blocking loops take a fuel argument and return `none` when it runs out.
* A `BufferContext` is alive while the queue owns it or, inside `Play`, while
  the local `shared_ptr` does.  The completion callback run on a pointer to a
  freed context reads freed memory; that is undefined and is `none` here.
* Diagnostics written to `std::cerr` are not modelled.
-/

namespace Musikcube

/-- The capacity `BUFFER_COUNT` of the per-provider admission check. -/
def BUFFER_COUNT : Nat := 8

/-- A non-null pointer to an object of the client library. -/
abbrev Handle := Nat

/-- An `IBufferProvider*`. -/
abbrev Provider := Nat

/-- An `IBuffer*` together with what the sink reads through it. -/
structure IBuffer where
  ptr : Nat
  SampleRate : Nat
  Channels : Nat
  Bytes : Nat
deriving DecidableEq, Repr

/-- A `BufferContext`, with the address `new` gave it.  The field `output` is
always the one sink of this model and is left out. -/
structure BufferContext where
  addr : Nat
  buffer : IBuffer
  provider : Provider
deriving DecidableEq, Repr

/-- The states of `pa_context_state_t`. -/
inductive pa_context_state_t
  | PA_CONTEXT_UNCONNECTED
  | PA_CONTEXT_CONNECTING
  | PA_CONTEXT_AUTHORIZING
  | PA_CONTEXT_SETTING_NAME
  | PA_CONTEXT_READY
  | PA_CONTEXT_FAILED
  | PA_CONTEXT_TERMINATED
deriving DecidableEq, Repr

/-- The states of `pa_stream_state_t`. -/
inductive pa_stream_state_t
  | PA_STREAM_UNCONNECTED
  | PA_STREAM_CREATING
  | PA_STREAM_READY
  | PA_STREAM_FAILED
  | PA_STREAM_TERMINATED
deriving DecidableEq, Repr

open pa_context_state_t pa_stream_state_t

/-- The library macro `PA_CONTEXT_IS_GOOD`: the connection is being set up or
is ready. -/
def PA_CONTEXT_IS_GOOD : pa_context_state_t → Bool
  | PA_CONTEXT_CONNECTING => true
  | PA_CONTEXT_AUTHORIZING => true
  | PA_CONTEXT_SETTING_NAME => true
  | PA_CONTEXT_READY => true
  | _ => false

/-- The value of `PA_OPERATION_RUNNING` in `pa_operation_state_t`.  The values
of this enumeration matter because the source compares one with a `bool`. -/
def PA_OPERATION_RUNNING : Nat := 0

/-- The value of `PA_OPERATION_DONE`. -/
def PA_OPERATION_DONE : Nat := 1

/-- The value of `PA_OPERATION_CANCELLED`. -/
def PA_OPERATION_CANCELLED : Nat := 2

/-- One call that leaves the sink: a call into the client library, with its
arguments and its answer, or the completion callback of a provider. -/
inductive Event
  | mainloop_new (result : Option Handle)
  | mainloop_start (loop : Handle) (error : Int)
  | mainloop_get_api (loop : Option Handle)
  | mainloop_lock (loop : Option Handle)
  | mainloop_unlock (loop : Option Handle)
  | mainloop_wait (loop : Option Handle)
  | mainloop_stop (loop : Handle)
  | mainloop_free (loop : Handle)
  | context_new (result : Option Handle)
  | context_set_state_callback (context : Handle)
  | context_connect (context : Handle) (error : Int)
  | context_get_state (context : Handle) (state : pa_context_state_t)
  | context_disconnect (context : Handle)
  | context_unref (context : Handle)
  | stream_new (context : Option Handle) (rate channels : Nat) (result : Option Handle)
  | stream_set_state_callback (stream : Handle)
  | stream_connect_playback (stream : Handle) (error : Int)
  | stream_get_state (stream : Handle) (state : pa_stream_state_t)
  | stream_cork (stream : Handle) (b : Nat) (result : Option Handle)
  | stream_write_ext_free (stream : Option Handle) (data : BufferContext) (error : Int)
  | stream_disconnect (stream : Handle)
  | stream_unref (stream : Handle)
  | operation_get_state (op : Handle) (state : Nat)
  | operation_unref (op : Handle)
  | OnBufferProcessed (provider : Provider) (buffer : IBuffer)
deriving DecidableEq, Repr

/-- The fields of the sink.  `rate` and `channels` are the two fields of
`pulseStreamFormat` that change; `buffers` is the pending queue, oldest
first. -/
structure PulseOut where
  pulseMainLoop : Option Handle
  pulseContext : Option Handle
  pulseStream : Option Handle
  rate : Nat
  channels : Nat
  buffers : List BufferContext
deriving DecidableEq, Repr

/-! ## waitForCompletion -/

/-- The loop of `waitForCompletion`.  `state` is the local variable of that
name: it is compared, never assigned, so it keeps the value it had when the
function was entered.  `poll k` is the answer of the `k`-th call of
`pa_operation_get_state`.  The loop condition is the source's
`(state == pa_operation_get_state(op)) == PA_OPERATION_RUNNING`, a `bool`
compared with an enumerator. -/
def waitForCompletion_loop (state : Nat) (op : Handle) (loop : Option Handle)
    (poll : Nat → Nat) : Nat → Nat → Option (List Event)
  | 0, _ => none
  | fuel + 1, k =>
    if (if state = poll k then 1 else 0) = PA_OPERATION_RUNNING then
      (waitForCompletion_loop state op loop poll fuel (k + 1)).map
        (fun ev => Event.operation_get_state op (poll k) :: Event.mainloop_wait loop :: ev)
    else
      some [Event.operation_get_state op (poll k)]

/-- `waitForCompletion(op, loop)`.  `state` is the value the uninitialised
local variable happens to hold. -/
def waitForCompletion (fuel : Nat) (state : Nat) (op : Option Handle) (loop : Option Handle)
    (poll : Nat → Nat) : Option (Bool × List Event) :=
  match op with
  | some o =>
    match waitForCompletion_loop state o loop poll fuel 0 with
    | none => none
    | some ev => some (decide (state = PA_OPERATION_DONE), ev ++ [Event.operation_unref o])
  | none => some (false, [])

/-- The reading the specification gives of the loop: poll the state of the
operation until it is no longer running. -/
def waitForCompletion_spec_loop (op : Handle) (loop : Option Handle)
    (poll : Nat → Nat) : Nat → Nat → Option (Nat × List Event)
  | 0, _ => none
  | fuel + 1, k =>
    if poll k = PA_OPERATION_RUNNING then
      (waitForCompletion_spec_loop op loop poll fuel (k + 1)).map
        (fun r => (r.1, Event.operation_get_state op (poll k) :: Event.mainloop_wait loop :: r.2))
    else
      some (poll k, [Event.operation_get_state op (poll k)])

/-- The specification of `waitForCompletion`: wait while the operation is
running, release the handle, report whether the last state seen is done. -/
def waitForCompletion_spec (fuel : Nat) (op : Option Handle) (loop : Option Handle)
    (poll : Nat → Nat) : Option (Bool × List Event) :=
  match op with
  | some o =>
    match waitForCompletion_spec_loop o loop poll fuel 0 with
    | none => none
    | some r => some (decide (r.1 = PA_OPERATION_DONE), r.2 ++ [Event.operation_unref o])
  | none => some (false, [])

/-! ## The pending queue -/

/-- The loop of `CountBuffersWithProvider`: walk the queue, counting. -/
def CountBuffersWithProvider_loop (provider : Provider) : List BufferContext → Nat → Nat
  | [], count => count
  | c :: rest, count =>
    CountBuffersWithProvider_loop provider rest (if c.provider = provider then count + 1 else count)

/-- `PulseOut::CountBuffersWithProvider`. -/
def CountBuffersWithProvider (s : PulseOut) (provider : Provider) : Nat :=
  CountBuffersWithProvider_loop provider s.buffers 0

/-- The loop of `RemoveBufferFromQueue`: erase the first entry whose pointer
is `context`; `none` when the walk reaches the end. -/
def RemoveBufferFromQueue_loop (context : Nat) : List BufferContext → Option (List BufferContext)
  | [] => none
  | c :: rest =>
    if c.addr = context then some rest
    else (RemoveBufferFromQueue_loop context rest).map (fun q => c :: q)

/-- `PulseOut::RemoveBufferFromQueue`. -/
def RemoveBufferFromQueue (s : PulseOut) (context : Nat) : Bool × PulseOut :=
  match RemoveBufferFromQueue_loop context s.buffers with
  | some q => (true, { s with buffers := q })
  | none => (false, s)

/-- `PulseOut::NotifyBufferCompleted`.  The argument is a pointer to a context
that is alive, given with the fields read through it (`context->provider` and
`context->buffer` are read before the queue is searched). -/
def NotifyBufferCompleted (s : PulseOut) (context : BufferContext) : PulseOut × List Event :=
  let provider := context.provider
  let buffer := context.buffer
  match RemoveBufferFromQueue s context.addr with
  | (true, s1) => (s1, [Event.OnBufferProcessed provider buffer])
  | (false, s1) => (s1, [])

/-- `PulseOut::OnPulseBufferPlayed` on a pointer to a context that is alive,
given with the fields read through it: `context->output` is this sink, on
which `NotifyBufferCompleted(context)` is called. -/
def OnPulseBufferPlayed_alive (s : PulseOut) (context : BufferContext) :
    PulseOut × List Event :=
  NotifyBufferCompleted s context

/-- The context object at address `data` among the contexts the queue owns,
`none` when the queue owns no context at that address. -/
def deref : List BufferContext → Nat → Option BufferContext
  | [], _ => none
  | c :: rest, data => if c.addr = data then some c else deref rest data

/-- `PulseOut::OnPulseBufferPlayed(data)` as the server runs it, with the raw
pointer it was handed at submission.  Once `Play` has returned the queue holds
the only `shared_ptr` to a context, and erasing the entry frees the object:
the contexts alive are those in the queue.  The callback reads
`context->output`, and then `context->provider` and `context->buffer`, before
any look-up; through a pointer to a freed context these reads are undefined,
which is `none` here. -/
def OnPulseBufferPlayed (s : PulseOut) (data : Nat) : Option (PulseOut × List Event) :=
  match deref s.buffers data with
  | some context => some (OnPulseBufferPlayed_alive s context)
  | none => none

/-! ## Pause and resume -/

/-- What the library answers during one `SetPaused`: the operation handle
`pa_stream_cork` returns, the value the uninitialised local `state` of
`waitForCompletion` holds, and the successive states of the operation. -/
structure CorkEnv where
  op : Option Handle
  state : Nat
  poll : Nat → Nat

/-- `PulseOut::SetPaused`.  It changes no field of the sink. -/
def SetPaused (fuel : Nat) (env : CorkEnv) (s : PulseOut) (paused : Bool) :
    Option (List Event) :=
  match s.pulseStream with
  | some st =>
    match waitForCompletion fuel env.state env.op s.pulseMainLoop env.poll with
    | none => none
    | some r =>
      some (Event.mainloop_lock s.pulseMainLoop
        :: Event.stream_cork st (if paused then 1 else 0) env.op
        :: (r.2 ++ [Event.mainloop_unlock s.pulseMainLoop]))
  | none => some []

/-- `PulseOut::Pause`. -/
def Pause (fuel : Nat) (env : CorkEnv) (s : PulseOut) : Option (List Event) :=
  SetPaused fuel env s true

/-- `PulseOut::Resume`. -/
def Resume (fuel : Nat) (env : CorkEnv) (s : PulseOut) : Option (List Event) :=
  SetPaused fuel env s false

/-! ## Stream set-up and teardown -/

/-- What the library answers during one `InitPulseStream`: the result of
`pa_stream_new`, the result of `pa_stream_connect_playback`, the state
`pa_stream_get_state` reports after the single wait, and the answers to the
`Resume` that follows a ready stream. -/
structure StreamEnv where
  stream_new : Option Handle
  connect_error : Int
  state_after_wait : pa_stream_state_t
  cork : CorkEnv

/-- `PulseOut::InitPulseStream`.  The two fields of `pa_sample_spec` are a
`uint32_t` and a `uint8_t`, so the `size_t` arguments are reduced on
assignment.  The lock taken on entry is released on every return. -/
def InitPulseStream (fuel : Nat) (env : StreamEnv) (s : PulseOut) (rate channels : Nat) :
    Option (Bool × PulseOut × List Event) :=
  let loop := s.pulseMainLoop
  let s1 : PulseOut :=
    { s with rate := rate % 4294967296, channels := channels % 256,
             pulseStream := env.stream_new }
  let ev0 := [Event.mainloop_lock loop,
    Event.stream_new s.pulseContext (rate % 4294967296) (channels % 256) env.stream_new]
  match env.stream_new with
  | some st =>
    let ev1 := ev0 ++ [Event.stream_set_state_callback st,
      Event.stream_connect_playback st env.connect_error]
    if env.connect_error = 0 then
      let ev2 := ev1 ++ [Event.mainloop_wait loop,
        Event.stream_get_state st env.state_after_wait]
      if env.state_after_wait = PA_STREAM_READY then
        match Resume fuel env.cork s1 with
        | none => none
        | some evr => some (true, s1, ev2 ++ evr ++ [Event.mainloop_unlock loop])
      else
        some (false, s1, ev2 ++ [Event.mainloop_unlock loop])
    else
      some (false, s1, ev1 ++ [Event.mainloop_unlock loop])
  | none => some (false, s1, ev0 ++ [Event.mainloop_unlock loop])

/-- `PulseOut::DeinitPulseStream`. -/
def DeinitPulseStream (s : PulseOut) : PulseOut × List Event :=
  match s.pulseStream with
  | some st =>
    ({ s with pulseStream := none },
      [Event.mainloop_lock s.pulseMainLoop, Event.stream_disconnect st,
       Event.stream_unref st, Event.mainloop_unlock s.pulseMainLoop])
  | none => (s, [])

/-- The second block of `PulseOut::DeinitPulse`: the context. -/
def DeinitPulse_context (s : PulseOut) : PulseOut × List Event :=
  match s.pulseContext with
  | some c =>
    ({ s with pulseContext := none },
      [Event.mainloop_lock s.pulseMainLoop, Event.context_disconnect c,
       Event.context_unref c, Event.mainloop_unlock s.pulseMainLoop])
  | none => (s, [])

/-- The third block of `PulseOut::DeinitPulse`: the main loop. -/
def DeinitPulse_mainloop (s : PulseOut) : PulseOut × List Event :=
  match s.pulseMainLoop with
  | some m =>
    ({ s with pulseMainLoop := none }, [Event.mainloop_stop m, Event.mainloop_free m])
  | none => (s, [])

/-- `PulseOut::DeinitPulse`: the three blocks in program order. -/
def DeinitPulse (s : PulseOut) : PulseOut × List Event :=
  let r1 := DeinitPulseStream s
  let r2 := DeinitPulse_context r1.1
  let r3 := DeinitPulse_mainloop r2.1
  (r3.1, r1.2 ++ r2.2 ++ r3.2)

/-- `PulseOut::Stop`, an empty function. -/
def Stop (s : PulseOut) : PulseOut × List Event := (s, [])

/-- The destructor `PulseOut::~PulseOut`, which `Destroy` runs. -/
def destructor (s : PulseOut) : PulseOut × List Event :=
  let r1 := Stop s
  let r2 := DeinitPulse r1.1
  (r2.1, r1.2 ++ r2.2)

/-! ## Play -/

/-- What the environment answers during one `Play`: the answers to a stream
set-up, the address `new BufferContext()` returns, the result of
`pa_stream_write_ext_free`, and whether the library runs the completion
callback it was handed before that call returns. -/
structure PlayEnv where
  stream : StreamEnv
  context : Nat
  write_error : Int
  callback_during_write : Bool

/-- The first block of `PulseOut::Play` (the format check and the stream
set-up).  The flag is `false` when the block returns `false` from `Play` and
`true` when control goes on to the admission check. -/
def Play_stream (fuel : Nat) (env : StreamEnv) (s : PulseOut) (buffer : IBuffer) :
    Option (Bool × PulseOut × List Event) :=
  if s.pulseStream = none ∨ s.rate ≠ buffer.SampleRate ∨ s.channels ≠ buffer.Channels then
    if s.pulseStream ≠ none then
      some (false, s, [])
    else
      let d := DeinitPulseStream s
      match InitPulseStream fuel env d.1 buffer.SampleRate buffer.Channels with
      | none => none
      | some r => some (r.1, r.2.1, d.2 ++ r.2.2)
  else
    some (true, s, [])

/-- The rest of `PulseOut::Play`: admission check, enqueue, submission under
the main-loop lock, and the completion path when the write reports an
error.  A callback the library runs inside the write is run on
`context.get()`, which the local `shared_ptr` keeps alive until `Play`
returns. -/
def Play_submit (env : PlayEnv) (s : PulseOut) (buffer : IBuffer) (provider : Provider) :
    Bool × PulseOut × List Event :=
  if CountBuffersWithProvider s provider ≥ BUFFER_COUNT then
    (false, s, [])
  else
    let context : BufferContext := { addr := env.context, buffer := buffer, provider := provider }
    let s1 : PulseOut := { s with buffers := s.buffers ++ [context] }
    let cb := if env.callback_during_write then OnPulseBufferPlayed_alive s1 context
      else (s1, [])
    let evw := Event.mainloop_lock s.pulseMainLoop
      :: Event.stream_write_ext_free s.pulseStream context env.write_error :: cb.2
    if env.write_error ≠ 0 then
      let n := NotifyBufferCompleted cb.1 context
      (false, n.1, evw ++ n.2 ++ [Event.mainloop_unlock s.pulseMainLoop])
    else
      (true, cb.1, evw ++ [Event.mainloop_unlock s.pulseMainLoop])

/-- `PulseOut::Play`: result, sink afterwards, and the calls made. -/
def Play (fuel : Nat) (env : PlayEnv) (s : PulseOut) (buffer : IBuffer) (provider : Provider) :
    Option (Bool × PulseOut × List Event) :=
  match Play_stream fuel env.stream s buffer with
  | none => none
  | some (false, s1, ev1) => some (false, s1, ev1)
  | some (true, s1, ev1) =>
    let r := Play_submit env s1 buffer provider
    some (r.1, r.2.1, ev1 ++ r.2.2)

/-! ## Construction -/

/-- What the library answers during `InitPulseEventLoopAndContext`: the
results of `pa_threaded_mainloop_new`, `pa_threaded_mainloop_start`,
`pa_context_new` and `pa_context_connect`, and the successive states
`pa_context_get_state` reports. -/
structure ContextEnv where
  mainloop_new : Option Handle
  start_error : Int
  context_new : Option Handle
  connect_error : Int
  poll : Nat → pa_context_state_t

/-- The connection loop of `InitPulseEventLoopAndContext`, entered with
`error` and `connected` both clear; it returns the two variables. -/
def InitPulseEventLoopAndContext_loop (c : Handle) (loop : Option Handle)
    (poll : Nat → pa_context_state_t) : Nat → Nat → Option (Bool × Bool × List Event)
  | 0, _ => none
  | fuel + 1, k =>
    if poll k = PA_CONTEXT_READY then
      some (false, true, [Event.context_get_state c (poll k)])
    else if !PA_CONTEXT_IS_GOOD (poll k) then
      some (true, false, [Event.context_get_state c (poll k)])
    else
      (InitPulseEventLoopAndContext_loop c loop poll fuel (k + 1)).map
        (fun r => (r.1, r.2.1,
          Event.context_get_state c (poll k) :: Event.mainloop_wait loop :: r.2.2))

/-- The part of `InitPulseEventLoopAndContext` from `pa_threaded_mainloop_get_api`
on, run with the main-loop field already assigned. -/
def InitPulseEventLoopAndContext_context (fuel : Nat) (env : ContextEnv) (s : PulseOut) :
    Option (Bool × PulseOut × List Event) :=
  let loop := s.pulseMainLoop
  let s1 : PulseOut := { s with pulseContext := env.context_new }
  let ev0 := [Event.mainloop_get_api loop, Event.mainloop_lock loop,
    Event.context_new env.context_new]
  match env.context_new with
  | some c =>
    let ev1 := ev0 ++ [Event.context_set_state_callback c,
      Event.context_connect c env.connect_error]
    if env.connect_error ≠ 0 then
      some (false, s1, ev1 ++ [Event.mainloop_unlock loop])
    else
      match InitPulseEventLoopAndContext_loop c loop env.poll fuel 0 with
      | none => none
      | some r =>
        some (r.2.1 && !r.1, s1, ev1 ++ r.2.2 ++ [Event.mainloop_unlock loop])
  | none => some (false, s1, ev0 ++ [Event.mainloop_unlock loop])

/-- `PulseOut::InitPulseEventLoopAndContext`. -/
def InitPulseEventLoopAndContext (fuel : Nat) (env : ContextEnv) (s : PulseOut) :
    Option (Bool × PulseOut × List Event) :=
  match env.mainloop_new with
  | some m =>
    if env.start_error ≠ 0 then
      some (false, { s with pulseMainLoop := none },
        [Event.mainloop_new (some m), Event.mainloop_start m env.start_error,
         Event.mainloop_free m])
    else
      match InitPulseEventLoopAndContext_context fuel env { s with pulseMainLoop := some m } with
      | none => none
      | some r =>
        some (r.1, r.2.1,
          Event.mainloop_new (some m) :: Event.mainloop_start m env.start_error :: r.2.2)
  | none =>
    match InitPulseEventLoopAndContext_context fuel env { s with pulseMainLoop := none } with
    | none => none
    | some r => some (r.1, r.2.1, Event.mainloop_new none :: r.2.2)

/-- `PulseOut::InitPulse`. -/
def InitPulse (fuel : Nat) (env : ContextEnv) (s : PulseOut) : Option (PulseOut × List Event) :=
  match InitPulseEventLoopAndContext fuel env s with
  | none => none
  | some (true, s1, ev) => some (s1, ev)
  | some (false, s1, ev) =>
    let d := DeinitPulse s1
    some (d.1, ev ++ d.2)

/-- The fields as the constructor sets them before it calls `InitPulse`. -/
def PulseOut.initial : PulseOut :=
  { pulseMainLoop := none, pulseContext := none, pulseStream := none,
    rate := 0, channels := 0, buffers := [] }

/-- The constructor `PulseOut::PulseOut` (the detached diagnostic thread is
not modelled). -/
def constructor (fuel : Nat) (env : ContextEnv) : Option (PulseOut × List Event) :=
  InitPulse fuel env PulseOut.initial

/-! ## Observations on a trace of calls -/

/-- How often provider `p` was told that buffer `b` is processed. -/
def notified (p : Provider) (b : IBuffer) (tr : List Event) : Nat :=
  tr.count (Event.OnBufferProcessed p b)

/-- Whether a call is a submission to the server of buffer `b` for provider `p`. -/
def Event.isSubmission (p : Provider) (b : IBuffer) : Event → Bool
  | Event.stream_write_ext_free _ d _ => decide (d.provider = p) && decide (d.buffer = b)
  | _ => false

/-- How often buffer `b` of provider `p` was submitted to the server. -/
def submitted (p : Provider) (b : IBuffer) (tr : List Event) : Nat :=
  tr.countP (Event.isSubmission p b)

/-- How many contexts of the queue hold buffer `b` for provider `p`. -/
def queued (p : Provider) (b : IBuffer) (s : PulseOut) : Nat :=
  s.buffers.countP (fun c => decide (c.provider = p) && decide (c.buffer = b))

/-- Calls that concern the pending queue: a submission or a notification. -/
def Event.isQueueEvent : Event → Bool
  | Event.stream_write_ext_free _ _ _ => true
  | Event.OnBufferProcessed _ _ => true
  | _ => false

/-- The notifications of a trace, in order. -/
def notifications (tr : List Event) : List Event :=
  tr.filter (fun e => match e with
    | Event.OnBufferProcessed _ _ => true
    | _ => false)

/-- The addresses of the queued contexts. -/
def PulseOut.addrs (s : PulseOut) : List Nat :=
  s.buffers.map BufferContext.addr

/-! ## Runs of the sink -/

/-- What can happen to a constructed sink: the host calls `Play`, or the
server runs the completion callback with a context pointer it was handed. -/
inductive Action
  | play (fuel : Nat) (env : PlayEnv) (buffer : IBuffer) (provider : Provider)
  | played (data : Nat)

/-- One action: the sink and the calls it made; `none` when `Play` blocks or
when the callback is run on a freed context. -/
def step (s : PulseOut) : Action → Option (PulseOut × List Event)
  | Action.play fuel env buffer provider =>
    (Play fuel env s buffer provider).map (fun r => (r.2.1, r.2.2))
  | Action.played data => OnPulseBufferPlayed s data

/-- A sequence of actions, with the concatenated trace. -/
def run : PulseOut → List Action → Option (PulseOut × List Event)
  | s, [] => some (s, [])
  | s, a :: rest =>
    match step s a with
    | none => none
    | some r => (run r.1 rest).map (fun r2 => (r2.1, r.2 ++ r2.2))

/-- The actions the code can execute: `new` returns an address that no
context alive (queued) has, and the server runs the callback only on a
context that is alive, that is, still in the queue. -/
def Action.valid (s : PulseOut) : Action → Bool
  | Action.play _ env _ _ => s.buffers.all (fun c => decide (c.addr ≠ env.context))
  | Action.played data => s.buffers.any (fun c => decide (c.addr = data))

/-- Every action of the run is valid in the state it is taken in. -/
def validRun : PulseOut → List Action → Bool
  | _, [] => true
  | s, a :: rest =>
    a.valid s &&
      match step s a with
      | none => true
      | some r => validRun r.1 rest

/-- The step invariant: the addresses in the queue stay pairwise distinct,
and notifications plus queued contexts balance submissions. -/
def Conserved (s : PulseOut) (ev : List Event) (s1 : PulseOut) : Prop :=
  s1.addrs.Nodup ∧
    ∀ p b, notified p b ev + queued p b s1 = submitted p b ev + queued p b s

/-! ## Teardown discipline -/

/-- An object of the client library that the sink owns a reference to. -/
inductive Resource
  | stream (h : Handle)
  | context (h : Handle)
  | mainloop (h : Handle)
deriving DecidableEq, Repr

/-- The object whose reference a call gives up. -/
def Event.releases : Event → Option Resource
  | Event.stream_unref st => some (Resource.stream st)
  | Event.context_unref c => some (Resource.context c)
  | Event.mainloop_free m => some (Resource.mainloop m)
  | _ => none

/-- Whether a call passes the object `r` to the library. -/
def Event.uses (r : Resource) : Event → Bool
  | Event.mainloop_new _ => false
  | Event.mainloop_start m _ => decide (r = Resource.mainloop m)
  | Event.mainloop_get_api m => decide (m.map Resource.mainloop = some r)
  | Event.mainloop_lock m => decide (m.map Resource.mainloop = some r)
  | Event.mainloop_unlock m => decide (m.map Resource.mainloop = some r)
  | Event.mainloop_wait m => decide (m.map Resource.mainloop = some r)
  | Event.mainloop_stop m => decide (r = Resource.mainloop m)
  | Event.mainloop_free m => decide (r = Resource.mainloop m)
  | Event.context_new _ => false
  | Event.context_set_state_callback c => decide (r = Resource.context c)
  | Event.context_connect c _ => decide (r = Resource.context c)
  | Event.context_get_state c _ => decide (r = Resource.context c)
  | Event.context_disconnect c => decide (r = Resource.context c)
  | Event.context_unref c => decide (r = Resource.context c)
  | Event.stream_new c _ _ _ => decide (c.map Resource.context = some r)
  | Event.stream_set_state_callback st => decide (r = Resource.stream st)
  | Event.stream_connect_playback st _ => decide (r = Resource.stream st)
  | Event.stream_get_state st _ => decide (r = Resource.stream st)
  | Event.stream_cork st _ _ => decide (r = Resource.stream st)
  | Event.stream_write_ext_free st _ _ => decide (st.map Resource.stream = some r)
  | Event.stream_disconnect st => decide (r = Resource.stream st)
  | Event.stream_unref st => decide (r = Resource.stream st)
  | Event.operation_get_state _ _ => false
  | Event.operation_unref _ => false
  | Event.OnBufferProcessed _ _ => false

/-- No call passes an object after the call that released it. -/
def noUseAfterRelease : List Event → Bool
  | [] => true
  | e :: rest =>
    (match e.releases with
      | some r => rest.all (fun e2 => !e2.uses r)
      | none => true) && noUseAfterRelease rest

/-- The locking rule of teardown, checked along a trace; `held` counts the
lock calls not yet matched by an unlock.  Disconnecting or releasing a stream
or a context needs the lock held; stopping and freeing the main loop need it
not held. -/
def lockDiscipline : Nat → List Event → Bool
  | _, [] => true
  | held, e :: rest =>
    match e with
    | Event.mainloop_lock _ => lockDiscipline (held + 1) rest
    | Event.mainloop_unlock _ => decide (0 < held) && lockDiscipline (held - 1) rest
    | Event.stream_disconnect _ => decide (0 < held) && lockDiscipline held rest
    | Event.stream_unref _ => decide (0 < held) && lockDiscipline held rest
    | Event.context_disconnect _ => decide (0 < held) && lockDiscipline held rest
    | Event.context_unref _ => decide (0 < held) && lockDiscipline held rest
    | Event.mainloop_stop _ => decide (held = 0) && lockDiscipline held rest
    | Event.mainloop_free _ => decide (held = 0) && lockDiscipline held rest
    | _ => lockDiscipline held rest

/-- The calls of the stream step of teardown. -/
def teardown_stream (s : PulseOut) : List Event :=
  match s.pulseStream with
  | some st =>
    [Event.mainloop_lock s.pulseMainLoop, Event.stream_disconnect st, Event.stream_unref st,
     Event.mainloop_unlock s.pulseMainLoop]
  | none => []

/-- The calls of the context step of teardown. -/
def teardown_context (s : PulseOut) : List Event :=
  match s.pulseContext with
  | some c =>
    [Event.mainloop_lock s.pulseMainLoop, Event.context_disconnect c, Event.context_unref c,
     Event.mainloop_unlock s.pulseMainLoop]
  | none => []

/-- The calls of the main-loop step of teardown. -/
def teardown_mainloop (s : PulseOut) : List Event :=
  match s.pulseMainLoop with
  | some m => [Event.mainloop_stop m, Event.mainloop_free m]
  | none => []

/-! ## Concrete inputs -/

/-- A stereo buffer at 44100 Hz. -/
def example_buffer : IBuffer :=
  { ptr := 100, SampleRate := 44100, Channels := 2, Bytes := 4096 }

/-- A second buffer of the same format. -/
def example_buffer2 : IBuffer :=
  { ptr := 101, SampleRate := 44100, Channels := 2, Bytes := 4096 }

/-- A buffer at another rate. -/
def example_buffer_48k : IBuffer :=
  { ptr := 102, SampleRate := 48000, Channels := 2, Bytes := 4096 }

/-- An operation that is running at the first two polls and done from then on. -/
def example_poll : Nat → Nat :=
  fun k => if k < 2 then PA_OPERATION_RUNNING else PA_OPERATION_DONE

/-- A cork request on which `waitForCompletion` returns at once. -/
def example_cork : CorkEnv :=
  { op := some 9, state := PA_OPERATION_DONE, poll := fun _ => PA_OPERATION_DONE }

/-- A server that connects after two waits. -/
def example_context_env : ContextEnv :=
  { mainloop_new := some 1, start_error := 0, context_new := some 2, connect_error := 0,
    poll := fun k => if k < 2 then PA_CONTEXT_CONNECTING else PA_CONTEXT_READY }

/-- The same server when `pa_threaded_mainloop_new` returns null. -/
def example_context_env_no_mainloop : ContextEnv :=
  { mainloop_new := none, start_error := 0, context_new := some 2, connect_error := 0,
    poll := fun k => if k < 2 then PA_CONTEXT_CONNECTING else PA_CONTEXT_READY }

/-- A stream set-up that succeeds with stream 7. -/
def example_stream_ok : StreamEnv :=
  { stream_new := some 7, connect_error := 0, state_after_wait := PA_STREAM_READY,
    cork := example_cork }

/-- A stream set-up in which `pa_stream_connect_playback` reports an error. -/
def example_stream_connect_error : StreamEnv :=
  { stream_new := some 7, connect_error := -1, state_after_wait := PA_STREAM_UNCONNECTED,
    cork := example_cork }

/-- A stream set-up in which the stream is found failed after the wait. -/
def example_stream_not_ready : StreamEnv :=
  { stream_new := some 7, connect_error := 0, state_after_wait := PA_STREAM_FAILED,
    cork := example_cork }

/-- A `Play` environment: context address `a`, write result `err`. -/
def example_play_env (stream : StreamEnv) (a : Nat) (err : Int) : PlayEnv :=
  { stream := stream, context := a, write_error := err, callback_during_write := false }

/-- The sink right after a successful construction. -/
def example_sink : PulseOut :=
  { pulseMainLoop := some 1, pulseContext := some 2, pulseStream := none,
    rate := 0, channels := 0, buffers := [] }

/-- The context at address `a` for `example_buffer` and provider `p`. -/
def example_context (a : Nat) (p : Provider) : BufferContext :=
  { addr := a, buffer := example_buffer, provider := p }

/-- A sink with a ready stream at 44100 Hz stereo, eight contexts of provider
1 queued and one of provider 2. -/
def example_sink_full : PulseOut :=
  { pulseMainLoop := some 1, pulseContext := some 2, pulseStream := some 7,
    rate := 44100, channels := 2,
    buffers := [example_context 500 1, example_context 501 1, example_context 502 1,
      example_context 503 1, example_context 600 2, example_context 504 1,
      example_context 505 1, example_context 506 1, example_context 507 1] }

/-- A run: two buffers played, the first completes, then a write fails for
another provider on a context allocated at the address just freed. -/
def example_actions : List Action :=
  [Action.play 5 (example_play_env example_stream_ok 500 0) example_buffer 1,
   Action.play 5 (example_play_env example_stream_ok 501 0) example_buffer2 1,
   Action.played 500,
   Action.play 5 (example_play_env example_stream_ok 500 (-3)) example_buffer 2]

/-- The sink and the trace at the end of `example_actions`. -/
def example_final : PulseOut × List Event :=
  match run example_sink example_actions with
  | some r => r
  | none => (PulseOut.initial, [])

/-! # Theorems -/

/-! ## The pending queue -/

theorem CountBuffersWithProvider_loop_eq (p : Provider) (q : List BufferContext) (n : Nat) :
    CountBuffersWithProvider_loop p q n = n + (q.filter (fun c => c.provider = p)).length := by
  induction q generalizing n with
  | nil => simp [CountBuffersWithProvider_loop]
  | cons c rest ih =>
    simp only [CountBuffersWithProvider_loop, ih]
    by_cases h : c.provider = p
    · simp [h, List.filter_cons]; omega
    · simp [h, List.filter_cons]

theorem CountBuffersWithProvider_eq (s : PulseOut) (p : Provider) :
    CountBuffersWithProvider s p = (s.buffers.filter (fun c => c.provider = p)).length := by
  simp [CountBuffersWithProvider, CountBuffersWithProvider_loop_eq]

theorem RemoveBufferFromQueue_loop_none (a : Nat) (q : List BufferContext) :
    RemoveBufferFromQueue_loop a q = none ↔ ∀ x ∈ q, x.addr ≠ a := by
  induction q with
  | nil => simp [RemoveBufferFromQueue_loop]
  | cons c rest ih =>
    by_cases h : c.addr = a
    · simp [RemoveBufferFromQueue_loop, h]
    · simp [RemoveBufferFromQueue_loop, h, ih]

theorem RemoveBufferFromQueue_loop_some (a : Nat) (q q1 : List BufferContext)
    (h : RemoveBufferFromQueue_loop a q = some q1) :
    ∃ l1 x l2, q = l1 ++ x :: l2 ∧ x.addr = a ∧ (∀ y ∈ l1, y.addr ≠ a) ∧ q1 = l1 ++ l2 := by
  induction q generalizing q1 with
  | nil => simp [RemoveBufferFromQueue_loop] at h
  | cons c rest ih =>
    by_cases hc : c.addr = a
    · simp [RemoveBufferFromQueue_loop, hc] at h
      exact ⟨[], c, rest, by simp, hc, by simp, by simp [h]⟩
    · rw [RemoveBufferFromQueue_loop, if_neg hc] at h
      cases hr : RemoveBufferFromQueue_loop a rest with
      | none => simp [hr] at h
      | some q2 =>
      simp only [hr, Option.map_some', Option.some.injEq] at h
      subst h
      obtain ⟨l1, x, l2, hq, hx, hl1, rfl⟩ := ih q2 hr
      refine ⟨c :: l1, x, l2, by simp [hq], hx, ?_, by simp⟩
      intro y hy
      rcases List.mem_cons.mp hy with rfl | hy
      · exact hc
      · exact hl1 y hy

theorem RemoveBufferFromQueue_loop_nodup (a : Nat) (q q1 : List BufferContext)
    (hn : (q.map BufferContext.addr).Nodup)
    (h : RemoveBufferFromQueue_loop a q = some q1) :
    (∀ x ∈ q1, x.addr ≠ a) ∧ (q1.map BufferContext.addr).Nodup := by
  obtain ⟨l1, x, l2, rfl, hx, hl1, rfl⟩ := RemoveBufferFromQueue_loop_some a q q1 h
  simp only [List.map_append, List.map_cons] at hn
  have hn1 := hn
  rw [List.nodup_append] at hn1
  obtain ⟨h1, h2, hdis⟩ := hn1
  rw [List.nodup_cons] at h2
  refine ⟨?_, ?_⟩
  · intro y hy
    rcases List.mem_append.mp hy with hy | hy
    · exact hl1 y hy
    · intro hya
      apply h2.1
      rw [hx, ← hya]
      exact List.mem_map_of_mem _ hy
  · rw [List.map_append, List.nodup_append]
    refine ⟨h1, h2.2, ?_⟩
    intro z hz1 hz2
    exact hdis hz1 (List.mem_cons_of_mem _ hz2)

theorem RemoveBufferFromQueue_true_iff (s : PulseOut) (c : Nat) :
    (RemoveBufferFromQueue s c).1 = true ↔ ∃ x ∈ s.buffers, x.addr = c := by
  unfold RemoveBufferFromQueue
  cases hr : RemoveBufferFromQueue_loop c s.buffers with
  | none =>
    have := (RemoveBufferFromQueue_loop_none c s.buffers).mp hr
    simp only [Bool.false_eq_true, false_iff, not_exists, not_and]
    exact this
  | some q =>
    simp only [true_iff]
    by_contra hne
    have : RemoveBufferFromQueue_loop c s.buffers = none :=
      (RemoveBufferFromQueue_loop_none c s.buffers).mpr (by
        intro x hx hxa
        exact hne ⟨x, hx, hxa⟩)
    rw [this] at hr
    cases hr

/-- C7. `RemoveBufferFromQueue(c)` returns true exactly when some queued
context has the address `c`; it then erases the first such entry and keeps
every other entry in its order; when it returns false the sink is unchanged.
On a queue of pairwise distinct contexts a second removal of `c` returns false
and leaves the queue the first removal produced. -/
theorem RemoveBufferFromQueue_by_identity (s : PulseOut) (c : Nat) :
    ((RemoveBufferFromQueue s c).1 = true ↔ ∃ x ∈ s.buffers, x.addr = c) ∧
    ((RemoveBufferFromQueue s c).1 = true →
      ∃ l1 x l2, s.buffers = l1 ++ x :: l2 ∧ x.addr = c ∧ (∀ y ∈ l1, y.addr ≠ c) ∧
        (RemoveBufferFromQueue s c).2 = { s with buffers := l1 ++ l2 }) ∧
    ((RemoveBufferFromQueue s c).1 = false → (RemoveBufferFromQueue s c).2 = s) ∧
    (s.addrs.Nodup →
      RemoveBufferFromQueue (RemoveBufferFromQueue s c).2 c
        = (false, (RemoveBufferFromQueue s c).2)) := by
  refine ⟨RemoveBufferFromQueue_true_iff s c, ?_, ?_, ?_⟩
  · intro h
    unfold RemoveBufferFromQueue at h ⊢
    cases hr : RemoveBufferFromQueue_loop c s.buffers with
    | none => simp [hr] at h
    | some q =>
      obtain ⟨l1, x, l2, hq, hx, hl1, rfl⟩ := RemoveBufferFromQueue_loop_some c _ q hr
      exact ⟨l1, x, l2, hq, hx, hl1, rfl⟩
  · intro h
    unfold RemoveBufferFromQueue at h ⊢
    cases hr : RemoveBufferFromQueue_loop c s.buffers with
    | none => rfl
    | some q => simp [hr] at h
  · intro hn
    unfold RemoveBufferFromQueue
    cases hr : RemoveBufferFromQueue_loop c s.buffers with
    | none => simp [hr]
    | some q =>
      have hq := (RemoveBufferFromQueue_loop_nodup c _ q hn hr).1
      have : RemoveBufferFromQueue_loop c q = none :=
        (RemoveBufferFromQueue_loop_none c q).mpr hq
      simp [this]

/-! ## Play on an existing stream -/

theorem Play_stream_same_format (fuel : Nat) (env : StreamEnv) (s : PulseOut) (buffer : IBuffer)
    (st : Handle) (hs : s.pulseStream = some st) (hr : s.rate = buffer.SampleRate)
    (hc : s.channels = buffer.Channels) :
    Play_stream fuel env s buffer = some (true, s, []) := by
  simp [Play_stream, hs, hr, hc]

theorem Play_stream_other_format (fuel : Nat) (env : StreamEnv) (s : PulseOut) (buffer : IBuffer)
    (st : Handle) (hs : s.pulseStream = some st)
    (hd : s.rate ≠ buffer.SampleRate ∨ s.channels ≠ buffer.Channels) :
    Play_stream fuel env s buffer = some (false, s, []) := by
  unfold Play_stream
  rw [if_pos (Or.inr hd), if_pos (by simp [hs])]

/-- C1. On a sink whose stream has the rate and channel count of the buffer,
and with a server that accepts the write, `Play` returns true exactly when
fewer than 8 contexts of this provider are queued; the count looks at the
contexts of this provider only.  When it rejects, the sink is unchanged and no
call is made; when it accepts, the buffer is submitted on the stream. -/
theorem Play_admission (fuel : Nat) (env : PlayEnv) (s : PulseOut) (buffer : IBuffer)
    (provider : Provider) (st : Handle)
    (hs : s.pulseStream = some st) (hr : s.rate = buffer.SampleRate)
    (hc : s.channels = buffer.Channels) (hw : env.write_error = 0) :
    CountBuffersWithProvider s provider
      = (s.buffers.filter (fun c => c.provider = provider)).length ∧
    ∃ s1 ev, Play fuel env s buffer provider
        = some (decide (CountBuffersWithProvider s provider < 8), s1, ev) ∧
      (8 ≤ CountBuffersWithProvider s provider → s1 = s ∧ ev = []) ∧
      (CountBuffersWithProvider s provider < 8 →
        Event.stream_write_ext_free (some st)
          { addr := env.context, buffer := buffer, provider := provider } 0 ∈ ev) := by
  refine ⟨CountBuffersWithProvider_eq s provider, ?_⟩
  have h1 := Play_stream_same_format fuel env.stream s buffer st hs hr hc
  by_cases hfull : 8 ≤ CountBuffersWithProvider s provider
  · refine ⟨s, [], ?_, fun _ => ⟨rfl, rfl⟩, fun h => absurd h (by omega)⟩
    have hd : decide (CountBuffersWithProvider s provider < 8) = false := by
      simp; omega
    simp [Play, h1, Play_submit, BUFFER_COUNT, hfull, hd]
  · have hlt : CountBuffersWithProvider s provider < 8 := by omega
    have hd : decide (CountBuffersWithProvider s provider < 8) = true := by
      simp [hlt]
    have hplay : Play fuel env s buffer provider = some (true,
        (if env.callback_during_write then
          OnPulseBufferPlayed_alive { s with buffers := s.buffers ++
            [{ addr := env.context, buffer := buffer, provider := provider }] }
            { addr := env.context, buffer := buffer, provider := provider }
         else ({ s with buffers := s.buffers ++
            [{ addr := env.context, buffer := buffer, provider := provider }] }, [])).1,
        Event.mainloop_lock s.pulseMainLoop
          :: Event.stream_write_ext_free (some st)
              { addr := env.context, buffer := buffer, provider := provider } 0
          :: ((if env.callback_during_write then
            OnPulseBufferPlayed_alive { s with buffers := s.buffers ++
              [{ addr := env.context, buffer := buffer, provider := provider }] }
              { addr := env.context, buffer := buffer, provider := provider }
           else ({ s with buffers := s.buffers ++
              [{ addr := env.context, buffer := buffer, provider := provider }] }, [])).2
            ++ [Event.mainloop_unlock s.pulseMainLoop])) := by
      simp [Play, h1, Play_submit, BUFFER_COUNT, hfull, hw, hs]
    rw [hplay, hd]
    exact ⟨_, _, rfl, fun h => absurd h hfull, fun _ => by simp⟩

/-- C6. On a sink with a stream, a buffer whose rate or channel count differs
from the recorded format makes `Play` return false with the sink unchanged
(stream handle, recorded format, queue) and without any call to the server or
to a provider; a following `Play` behaves as if the rejected call had not
been made. -/
theorem Play_format_mismatch (fuel : Nat) (env : PlayEnv) (s : PulseOut) (buffer : IBuffer)
    (provider : Provider) (st : Handle) (hs : s.pulseStream = some st)
    (hd : s.rate ≠ buffer.SampleRate ∨ s.channels ≠ buffer.Channels) :
    Play fuel env s buffer provider = some (false, s, []) ∧
    ∀ (fuel2 : Nat) (env2 : PlayEnv) (b2 : IBuffer) (p2 : Provider),
      ((Play fuel env s buffer provider).bind fun r =>
        (Play fuel2 env2 r.2.1 b2 p2).map fun r2 => (r2.1, r2.2.1, r.2.2 ++ r2.2.2))
        = Play fuel2 env2 s b2 p2 := by
  have h : Play fuel env s buffer provider = some (false, s, []) := by
    simp [Play, Play_stream_other_format fuel env.stream s buffer st hs hd]
  refine ⟨h, ?_⟩
  intro fuel2 env2 b2 p2
  rw [h]
  cases hp : Play fuel2 env2 s b2 p2 <;> simp [hp]

/-! ## Stream set-up leaves the queue alone -/

theorem waitForCompletion_loop_events (state : Nat) (op : Handle) (loop : Option Handle)
    (poll : Nat → Nat) (fuel k : Nat) (ev : List Event)
    (h : waitForCompletion_loop state op loop poll fuel k = some ev) :
    ∀ e ∈ ev, e.isQueueEvent = false := by
  induction fuel generalizing k ev with
  | zero => simp [waitForCompletion_loop] at h
  | succ n ih =>
    rw [waitForCompletion_loop] at h
    by_cases hc : (if state = poll k then 1 else 0) = PA_OPERATION_RUNNING
    · rw [if_pos hc] at h
      cases hr : waitForCompletion_loop state op loop poll n (k + 1) with
      | none => simp [hr] at h
      | some ev1 =>
        simp only [hr, Option.map_some', Option.some.injEq] at h
        subst h
        intro e he
        simp only [List.mem_cons] at he
        rcases he with rfl | rfl | he
        · rfl
        · rfl
        · exact ih (k + 1) ev1 hr e he
    · rw [if_neg hc] at h
      simp only [Option.some.injEq] at h
      subst h
      intro e he
      simp only [List.mem_singleton] at he
      subst he
      rfl

theorem SetPaused_events (fuel : Nat) (env : CorkEnv) (s : PulseOut) (paused : Bool)
    (ev : List Event) (h : SetPaused fuel env s paused = some ev) :
    ∀ e ∈ ev, e.isQueueEvent = false := by
  unfold SetPaused at h
  cases hs : s.pulseStream with
  | none =>
    simp only [hs, Option.some.injEq] at h
    subst h
    simp
  | some st =>
    simp only [hs] at h
    unfold waitForCompletion at h
    cases hop : env.op with
    | none =>
      simp only [hop, Option.some.injEq] at h
      subst h
      intro e he
      simp at he
      rcases he with rfl | rfl | rfl <;> rfl
    | some o =>
      simp only [hop] at h
      cases hl : waitForCompletion_loop env.state o s.pulseMainLoop env.poll fuel 0 with
      | none => simp [hl] at h
      | some ev1 =>
        simp only [hl, Option.some.injEq] at h
        subst h
        have h1 := waitForCompletion_loop_events _ _ _ _ _ _ _ hl
        intro e he
        simp only [List.mem_cons, List.mem_append, List.mem_singleton, List.not_mem_nil,
          or_false] at he
        rcases he with rfl | rfl | (he | rfl) | rfl
        · rfl
        · rfl
        · exact h1 e he
        · rfl
        · rfl

theorem InitPulseStream_frame (fuel : Nat) (env : StreamEnv) (s : PulseOut) (rate channels : Nat)
    (r : Bool) (s1 : PulseOut) (ev : List Event)
    (h : InitPulseStream fuel env s rate channels = some (r, s1, ev)) :
    s1.buffers = s.buffers ∧ s1.pulseMainLoop = s.pulseMainLoop ∧
      ∀ e ∈ ev, e.isQueueEvent = false := by
  unfold InitPulseStream at h
  cases hn : env.stream_new with
  | none =>
    simp only [hn, Option.some.injEq, Prod.mk.injEq] at h
    obtain ⟨-, rfl, rfl⟩ := h
    refine ⟨rfl, rfl, ?_⟩
    intro e he
    simp at he
    rcases he with rfl | rfl | rfl <;> rfl
  | some st =>
    simp only [hn] at h
    split at h
    · split at h
      · unfold Resume at h
        cases hp : SetPaused fuel env.cork
            { s with rate := rate % 4294967296, channels := channels % 256,
                     pulseStream := some st } false with
        | none => simp [hp] at h
        | some evr =>
          simp only [hp, Option.some.injEq, Prod.mk.injEq] at h
          obtain ⟨-, rfl, rfl⟩ := h
          have h1 := SetPaused_events _ _ _ _ _ hp
          refine ⟨rfl, rfl, ?_⟩
          intro e he
          simp only [List.mem_cons, List.mem_append, List.mem_singleton, List.not_mem_nil,
            or_false] at he
          rcases he with ((((rfl | rfl) | rfl | rfl) | rfl | rfl) | he) | rfl
          all_goals first | rfl | exact h1 e he
      · simp only [Option.some.injEq, Prod.mk.injEq] at h
        obtain ⟨-, rfl, rfl⟩ := h
        refine ⟨rfl, rfl, ?_⟩
        intro e he
        simp at he
        rcases he with rfl | rfl | rfl | rfl | rfl | rfl | rfl <;> rfl
    · simp only [Option.some.injEq, Prod.mk.injEq] at h
      obtain ⟨-, rfl, rfl⟩ := h
      refine ⟨rfl, rfl, ?_⟩
      intro e he
      simp at he
      rcases he with rfl | rfl | rfl | rfl | rfl <;> rfl

theorem Play_stream_frame (fuel : Nat) (env : StreamEnv) (s : PulseOut) (buffer : IBuffer)
    (r : Bool) (s1 : PulseOut) (ev : List Event)
    (h : Play_stream fuel env s buffer = some (r, s1, ev)) :
    s1.buffers = s.buffers ∧ s1.pulseMainLoop = s.pulseMainLoop ∧
      ∀ e ∈ ev, e.isQueueEvent = false := by
  unfold Play_stream at h
  split at h
  · split at h
    · simp only [Option.some.injEq, Prod.mk.injEq] at h
      obtain ⟨-, rfl, rfl⟩ := h
      simp
    · rename_i hnone
      have hs : s.pulseStream = none := by simpa using hnone
      have hd : DeinitPulseStream s = (s, []) := by simp [DeinitPulseStream, hs]
      rw [hd] at h
      cases hi : InitPulseStream fuel env s buffer.SampleRate buffer.Channels with
      | none => simp [hi] at h
      | some x =>
        obtain ⟨r1, s2, ev2⟩ := x
        simp only [hi, Option.some.injEq, Prod.mk.injEq, List.nil_append] at h
        obtain ⟨-, rfl, rfl⟩ := h
        exact InitPulseStream_frame _ _ _ _ _ _ _ _ hi
  · simp only [Option.some.injEq, Prod.mk.injEq] at h
    obtain ⟨-, rfl, rfl⟩ := h
    simp

/-! ## Submission -/

theorem RemoveBufferFromQueue_loop_append_fresh (c : BufferContext) (q : List BufferContext)
    (hf : ∀ x ∈ q, x.addr ≠ c.addr) :
    RemoveBufferFromQueue_loop c.addr (q ++ [c]) = some q := by
  induction q with
  | nil => simp [RemoveBufferFromQueue_loop]
  | cons x rest ih =>
    have hx : x.addr ≠ c.addr := hf x (List.mem_cons_self _ _)
    have hrest : ∀ y ∈ rest, y.addr ≠ c.addr := fun y hy => hf y (List.mem_cons_of_mem _ hy)
    simp [RemoveBufferFromQueue_loop, hx, ih hrest]

theorem NotifyBufferCompleted_pushed (s : PulseOut) (c : BufferContext)
    (hf : ∀ x ∈ s.buffers, x.addr ≠ c.addr) :
    NotifyBufferCompleted { s with buffers := s.buffers ++ [c] } c
      = (s, [Event.OnBufferProcessed c.provider c.buffer]) := by
  simp [NotifyBufferCompleted, RemoveBufferFromQueue,
    RemoveBufferFromQueue_loop_append_fresh c s.buffers hf]

theorem NotifyBufferCompleted_absent (s : PulseOut) (c : BufferContext)
    (hf : ∀ x ∈ s.buffers, x.addr ≠ c.addr) :
    NotifyBufferCompleted s c = (s, []) := by
  simp [NotifyBufferCompleted, RemoveBufferFromQueue,
    (RemoveBufferFromQueue_loop_none c.addr s.buffers).mpr hf]

/-- What `Play_submit` does once the admission check has passed and the
address of the new context is not that of a queued one. -/
theorem Play_submit_admitted (env : PlayEnv) (s : PulseOut) (buffer : IBuffer)
    (provider : Provider) (hcount : CountBuffersWithProvider s provider < BUFFER_COUNT)
    (hf : ∀ x ∈ s.buffers, x.addr ≠ env.context) :
    Play_submit env s buffer provider =
      if env.callback_during_write = true ∨ env.write_error ≠ 0 then
        (decide (env.write_error = 0), s,
          [Event.mainloop_lock s.pulseMainLoop,
           Event.stream_write_ext_free s.pulseStream
             { addr := env.context, buffer := buffer, provider := provider } env.write_error,
           Event.OnBufferProcessed provider buffer,
           Event.mainloop_unlock s.pulseMainLoop])
      else
        (true,
          { s with buffers := s.buffers ++
              [{ addr := env.context, buffer := buffer, provider := provider }] },
          [Event.mainloop_lock s.pulseMainLoop,
           Event.stream_write_ext_free s.pulseStream
             { addr := env.context, buffer := buffer, provider := provider } env.write_error,
           Event.mainloop_unlock s.pulseMainLoop]) := by
  have hge : ¬ CountBuffersWithProvider s provider ≥ BUFFER_COUNT := by omega
  have hp := NotifyBufferCompleted_pushed s
    { addr := env.context, buffer := buffer, provider := provider } hf
  have ha := NotifyBufferCompleted_absent s
    { addr := env.context, buffer := buffer, provider := provider } hf
  unfold Play_submit
  rw [if_neg hge]
  by_cases hcb : env.callback_during_write = true
  · by_cases he : env.write_error = 0
    · simp [hcb, he, OnPulseBufferPlayed_alive, hp]
    · simp [hcb, he, OnPulseBufferPlayed_alive, hp, ha]
  · by_cases he : env.write_error = 0
    · simp [hcb, he]
    · simp [hcb, he, hp]

/-- C3. When the first block of `Play` lets the call through, fewer than 8
contexts of the provider are queued, the write reports an error, and the new
context has a fresh address, `Play` returns false, the queue afterwards is
the queue before the call, and the provider is notified exactly once, with
this buffer. -/
theorem Play_write_error (fuel : Nat) (env : PlayEnv) (s : PulseOut) (buffer : IBuffer)
    (provider : Provider) (s1 : PulseOut) (ev1 : List Event)
    (hstream : Play_stream fuel env.stream s buffer = some (true, s1, ev1))
    (hcount : CountBuffersWithProvider s provider < BUFFER_COUNT)
    (herr : env.write_error ≠ 0)
    (hfresh : ∀ c ∈ s.buffers, c.addr ≠ env.context) :
    ∃ s2 ev, Play fuel env s buffer provider = some (false, s2, ev) ∧
      s2.buffers = s.buffers ∧
      notifications ev = [Event.OnBufferProcessed provider buffer] := by
  obtain ⟨hb, -, hq⟩ := Play_stream_frame _ _ _ _ _ _ _ hstream
  have hcount1 : CountBuffersWithProvider s1 provider < BUFFER_COUNT := by
    simpa [CountBuffersWithProvider, hb] using hcount
  have hfresh1 : ∀ c ∈ s1.buffers, c.addr ≠ env.context := by
    rw [hb]; exact hfresh
  have hsub := Play_submit_admitted env s1 buffer provider hcount1 hfresh1
  rw [if_pos (Or.inr herr)] at hsub
  have hnone : notifications ev1 = [] := by
    unfold notifications
    rw [List.filter_eq_nil_iff]
    intro e he
    have := hq e he
    cases e <;> simp_all [Event.isQueueEvent]
  refine ⟨s1, ev1 ++ [Event.mainloop_lock s1.pulseMainLoop,
      Event.stream_write_ext_free s1.pulseStream
        { addr := env.context, buffer := buffer, provider := provider } env.write_error,
      Event.OnBufferProcessed provider buffer,
      Event.mainloop_unlock s1.pulseMainLoop], ?_, hb, ?_⟩
  · simp only [Play, hstream, hsub]
    simp [herr]
  · have happ : ∀ l1 l2 : List Event,
        notifications (l1 ++ l2) = notifications l1 ++ notifications l2 :=
      fun l1 l2 => List.filter_append l1 l2
    rw [happ, hnone]
    simp [notifications]

/-! ## Conservation of queued contexts -/

theorem notified_append (p : Provider) (b : IBuffer) (l1 l2 : List Event) :
    notified p b (l1 ++ l2) = notified p b l1 + notified p b l2 := by
  simp [notified]

theorem submitted_append (p : Provider) (b : IBuffer) (l1 l2 : List Event) :
    submitted p b (l1 ++ l2) = submitted p b l1 + submitted p b l2 := by
  simp [submitted]

theorem notified_of_no_queue_event (p : Provider) (b : IBuffer) (l : List Event)
    (h : ∀ e ∈ l, e.isQueueEvent = false) : notified p b l = 0 := by
  unfold notified
  rw [List.count_eq_zero]
  intro hm
  have := h _ hm
  simp [Event.isQueueEvent] at this

theorem submitted_of_no_queue_event (p : Provider) (b : IBuffer) (l : List Event)
    (h : ∀ e ∈ l, e.isQueueEvent = false) : submitted p b l = 0 := by
  unfold submitted
  rw [List.countP_eq_zero]
  intro e he
  have := h e he
  cases e <;> simp_all [Event.isQueueEvent, Event.isSubmission]

theorem deref_some (q : List BufferContext) (data : Nat) (c : BufferContext)
    (h : deref q data = some c) : c ∈ q ∧ c.addr = data := by
  induction q with
  | nil => simp [deref] at h
  | cons x rest ih =>
    by_cases hx : x.addr = data
    · simp only [deref, hx, if_true, Option.some.injEq] at h
      subst h
      exact ⟨List.mem_cons_self _ _, hx⟩
    · simp only [deref, hx, if_false] at h
      exact ⟨List.mem_cons_of_mem _ (ih h).1, (ih h).2⟩

theorem deref_none (q : List BufferContext) (data : Nat) :
    deref q data = none ↔ ∀ x ∈ q, x.addr ≠ data := by
  induction q with
  | nil => simp [deref]
  | cons x rest ih =>
    by_cases hx : x.addr = data
    · simp [deref, hx]
    · simp [deref, hx, ih]

theorem deref_of_mem (q : List BufferContext) (c : BufferContext)
    (hn : (q.map BufferContext.addr).Nodup) (hc : c ∈ q) : deref q c.addr = some c := by
  cases hd : deref q c.addr with
  | none => exact absurd rfl ((deref_none q c.addr).mp hd c hc)
  | some x =>
    obtain ⟨hx, hxa⟩ := deref_some q c.addr x hd
    rw [List.inj_on_of_nodup_map hn hx hc hxa]

theorem NotifyBufferCompleted_conserved (s : PulseOut) (d : BufferContext)
    (hn : s.addrs.Nodup) (hv : ∀ c ∈ s.buffers, c.addr = d.addr → c = d) :
    Conserved s (NotifyBufferCompleted s d).2 (NotifyBufferCompleted s d).1 := by
  unfold NotifyBufferCompleted RemoveBufferFromQueue
  cases hr : RemoveBufferFromQueue_loop d.addr s.buffers with
  | none =>
    refine ⟨hn, ?_⟩
    intro p b
    simp [notified, submitted]
  | some q =>
    have hnd := (RemoveBufferFromQueue_loop_nodup d.addr _ q hn hr).2
    obtain ⟨l1, x, l2, hq, hx, -, rfl⟩ := RemoveBufferFromQueue_loop_some d.addr _ q hr
    have hxd : x = d := hv x (by rw [hq]; simp) hx
    subst hxd
    refine ⟨hnd, ?_⟩
    intro p b
    simp only [notified, submitted, queued, hq, List.countP_append, List.countP_cons,
      List.count_singleton, List.countP_nil]
    by_cases h1 : x.provider = p <;> by_cases h2 : x.buffer = b <;>
      simp [h1, h2, Event.isSubmission]
    omega

theorem OnPulseBufferPlayed_conserved (s : PulseOut) (data : Nat) (s1 : PulseOut)
    (ev : List Event) (hn : s.addrs.Nodup)
    (h : OnPulseBufferPlayed s data = some (s1, ev)) : Conserved s ev s1 := by
  unfold OnPulseBufferPlayed at h
  cases hd : deref s.buffers data with
  | none => simp [hd] at h
  | some c =>
    simp only [hd, OnPulseBufferPlayed_alive, Option.some.injEq] at h
    obtain ⟨hc, -⟩ := deref_some _ _ _ hd
    have := NotifyBufferCompleted_conserved s c hn
      (fun x hx hxa => List.inj_on_of_nodup_map hn hx hc hxa)
    rw [h] at this
    exact this

theorem Conserved_refl (s : PulseOut) (hn : s.addrs.Nodup) : Conserved s [] s :=
  ⟨hn, fun p b => by simp [notified, submitted]⟩

theorem Conserved_trans (s s1 s2 : PulseOut) (ev1 ev2 : List Event)
    (h1 : Conserved s ev1 s1) (h2 : Conserved s1 ev2 s2) : Conserved s (ev1 ++ ev2) s2 := by
  refine ⟨h2.1, ?_⟩
  intro p b
  have e1 := h1.2 p b
  have e2 := h2.2 p b
  rw [notified_append, submitted_append]
  omega

theorem Conserved_of_frame (s s1 : PulseOut) (ev : List Event) (hn : s.addrs.Nodup)
    (hb : s1.buffers = s.buffers) (hq : ∀ e ∈ ev, e.isQueueEvent = false) :
    Conserved s ev s1 := by
  refine ⟨by simpa [PulseOut.addrs, hb] using hn, ?_⟩
  intro p b
  rw [notified_of_no_queue_event p b ev hq, submitted_of_no_queue_event p b ev hq]
  simp [queued, hb]

theorem Play_submit_conserved (env : PlayEnv) (s : PulseOut) (buffer : IBuffer)
    (provider : Provider) (hn : s.addrs.Nodup)
    (hf : ∀ x ∈ s.buffers, x.addr ≠ env.context) :
    Conserved s (Play_submit env s buffer provider).2.2 (Play_submit env s buffer provider).2.1 := by
  by_cases hcount : CountBuffersWithProvider s provider < BUFFER_COUNT
  · rw [Play_submit_admitted env s buffer provider hcount hf]
    split
    · refine ⟨hn, ?_⟩
      intro p b
      by_cases h1 : provider = p <;> by_cases h2 : buffer = b <;>
        simp [notified, submitted, List.count_cons, List.countP_cons, Event.isSubmission, h1, h2]
    · refine ⟨?_, ?_⟩
      · simp only [PulseOut.addrs, List.map_append, List.map_cons, List.map_nil]
        rw [List.nodup_append]
        refine ⟨hn, by simp, ?_⟩
        intro a ha hb
        simp only [List.mem_singleton] at hb
        subst hb
        obtain ⟨x, hx, hxa⟩ := List.mem_map.mp ha
        exact hf x hx hxa
      · intro p b
        by_cases h1 : provider = p <;> by_cases h2 : buffer = b <;>
          simp [notified, submitted, queued, List.count_cons, List.countP_cons,
            Event.isSubmission, h1, h2]
        omega
  · have hge : CountBuffersWithProvider s provider ≥ BUFFER_COUNT := by omega
    simp only [Play_submit, hge, if_true]
    exact Conserved_refl s hn

theorem Play_conserved (fuel : Nat) (env : PlayEnv) (s : PulseOut) (buffer : IBuffer)
    (provider : Provider) (r : Bool) (s1 : PulseOut) (ev : List Event)
    (hn : s.addrs.Nodup) (hf : ∀ x ∈ s.buffers, x.addr ≠ env.context)
    (h : Play fuel env s buffer provider = some (r, s1, ev)) : Conserved s ev s1 := by
  unfold Play at h
  cases hs : Play_stream fuel env.stream s buffer with
  | none => simp [hs] at h
  | some x =>
    obtain ⟨r0, s0, ev0⟩ := x
    obtain ⟨hb, -, hq⟩ := Play_stream_frame _ _ _ _ _ _ _ hs
    have hc0 := Conserved_of_frame s s0 ev0 hn hb hq
    cases r0 with
    | false =>
      simp only [hs, Option.some.injEq, Prod.mk.injEq] at h
      obtain ⟨-, rfl, rfl⟩ := h
      exact hc0
    | true =>
      simp only [hs, Option.some.injEq, Prod.mk.injEq] at h
      obtain ⟨-, rfl, rfl⟩ := h
      exact Conserved_trans _ _ _ _ _ hc0
        (Play_submit_conserved env s0 buffer provider hc0.1 (by rw [hb]; exact hf))

theorem step_conserved (s : PulseOut) (a : Action) (s1 : PulseOut) (ev : List Event)
    (hn : s.addrs.Nodup) (hv : a.valid s = true) (h : step s a = some (s1, ev)) :
    Conserved s ev s1 := by
  cases a with
  | play fuel env buffer provider =>
    simp only [step] at h
    cases hp : Play fuel env s buffer provider with
    | none => simp [hp] at h
    | some x =>
      obtain ⟨r, s2, ev2⟩ := x
      simp only [hp, Option.map_some', Option.some.injEq, Prod.mk.injEq] at h
      obtain ⟨rfl, rfl⟩ := h
      simp only [Action.valid, List.all_eq_true, decide_eq_true_eq] at hv
      exact Play_conserved _ _ _ _ _ _ _ _ hn hv hp
  | played d =>
    simp only [step] at h
    exact OnPulseBufferPlayed_conserved s d s1 ev hn h

theorem run_conserved (acts : List Action) (s0 s : PulseOut) (tr : List Event)
    (hn : s0.addrs.Nodup) (hv : validRun s0 acts = true) (h : run s0 acts = some (s, tr)) :
    Conserved s0 tr s := by
  induction acts generalizing s0 s tr with
  | nil =>
    simp only [run, Option.some.injEq, Prod.mk.injEq] at h
    obtain ⟨rfl, rfl⟩ := h
    exact Conserved_refl _ hn
  | cons a rest ih =>
    simp only [run] at h
    simp only [validRun, Bool.and_eq_true] at hv
    cases hs : step s0 a with
    | none => simp [hs] at h
    | some x =>
      obtain ⟨s1, ev1⟩ := x
      simp only [hs] at h hv
      cases hr : run s1 rest with
      | none => simp [hr] at h
      | some y =>
        obtain ⟨s2, ev2⟩ := y
        simp only [hr, Option.map_some', Option.some.injEq, Prod.mk.injEq] at h
        obtain ⟨rfl, rfl⟩ := h
        have c1 := step_conserved s0 a s1 ev1 hn hv.1 hs
        exact Conserved_trans _ _ _ _ _ c1 (ih s1 _ _ c1.1 hv.2 hr)

theorem OnPulseBufferPlayed_queued (s : PulseOut) (c : BufferContext)
    (hn : s.addrs.Nodup) (hc : c ∈ s.buffers) :
    ∃ l1 l2, s.buffers = l1 ++ c :: l2 ∧
      OnPulseBufferPlayed s c.addr
        = some ({ s with buffers := l1 ++ l2 },
            [Event.OnBufferProcessed c.provider c.buffer]) ∧
      (∀ x ∈ l1 ++ l2, x.addr ≠ c.addr) ∧
      (Action.played c.addr).valid { s with buffers := l1 ++ l2 } = false := by
  have hderef := deref_of_mem s.buffers c hn hc
  cases hr : RemoveBufferFromQueue_loop c.addr s.buffers with
  | none =>
    exact absurd rfl ((RemoveBufferFromQueue_loop_none c.addr s.buffers).mp hr c hc)
  | some q =>
    have hfresh := (RemoveBufferFromQueue_loop_nodup c.addr _ q hn hr).1
    obtain ⟨l1, x, l2, hq, hx, -, rfl⟩ := RemoveBufferFromQueue_loop_some c.addr _ q hr
    have hxc : x = c := by
      rw [hq] at hc
      rcases List.mem_append.mp hc with h | h
      · exact absurd rfl (hfresh c (List.mem_append_left _ h))
      · rcases List.mem_cons.mp h with h | h
        · exact h.symm
        · exact absurd rfl (hfresh c (List.mem_append_right _ h))
    subst hxc
    refine ⟨l1, l2, hq, ?_, hfresh, ?_⟩
    · simp [OnPulseBufferPlayed, hderef, OnPulseBufferPlayed_alive, NotifyBufferCompleted,
        RemoveBufferFromQueue, hr]
    · simp only [Action.valid, Bool.eq_false_iff, ne_eq, List.any_eq_true, decide_eq_true_eq,
        not_exists, not_and]
      exact hfresh

/-! ## Where queued contexts come from -/

theorem notifications_of_no_queue_event (l : List Event)
    (h : ∀ e ∈ l, e.isQueueEvent = false) : notifications l = [] := by
  unfold notifications
  rw [List.filter_eq_nil_iff]
  intro e he
  have := h e he
  cases e <;> simp_all [Event.isQueueEvent]

theorem NotifyBufferCompleted_subset (s : PulseOut) (d : BufferContext) :
    ∀ c ∈ (NotifyBufferCompleted s d).1.buffers, c ∈ s.buffers := by
  unfold NotifyBufferCompleted RemoveBufferFromQueue
  cases hr : RemoveBufferFromQueue_loop d.addr s.buffers with
  | none => intro c hc; exact hc
  | some q =>
    obtain ⟨l1, x, l2, hq, -, -, rfl⟩ := RemoveBufferFromQueue_loop_some d.addr _ q hr
    intro c hc
    simp only [List.mem_append] at hc
    rw [hq]
    rcases hc with h | h
    · exact List.mem_append_left _ h
    · exact List.mem_append_right _ (List.mem_cons_of_mem _ h)

theorem Play_origin (fuel : Nat) (env : PlayEnv) (s : PulseOut) (buffer : IBuffer)
    (provider : Provider) (r : Bool) (s1 : PulseOut) (ev : List Event)
    (hf : ∀ x ∈ s.buffers, x.addr ≠ env.context)
    (h : Play fuel env s buffer provider = some (r, s1, ev)) :
    ∀ c ∈ s1.buffers, c ∈ s.buffers ∨
      (c = { addr := env.context, buffer := buffer, provider := provider } ∧
        env.write_error = 0) := by
  unfold Play at h
  cases hs : Play_stream fuel env.stream s buffer with
  | none => simp [hs] at h
  | some x =>
    obtain ⟨r0, s0, ev0⟩ := x
    obtain ⟨hb, -, -⟩ := Play_stream_frame _ _ _ _ _ _ _ hs
    cases r0 with
    | false =>
      simp only [hs, Option.some.injEq, Prod.mk.injEq] at h
      obtain ⟨-, rfl, -⟩ := h
      intro c hc
      exact Or.inl (by rw [← hb]; exact hc)
    | true =>
      simp only [hs, Option.some.injEq, Prod.mk.injEq] at h
      obtain ⟨-, rfl, -⟩ := h
      intro c hc
      by_cases hcount : CountBuffersWithProvider s0 provider < BUFFER_COUNT
      · rw [Play_submit_admitted env s0 buffer provider hcount (by rw [hb]; exact hf)] at hc
        by_cases hcase : env.callback_during_write = true ∨ env.write_error ≠ 0
        · rw [if_pos hcase] at hc
          exact Or.inl (by rw [← hb]; exact hc)
        · rw [if_neg hcase] at hc
          simp only [List.mem_append, List.mem_singleton] at hc
          rcases hc with hc | hc
          · exact Or.inl (by rw [← hb]; exact hc)
          · refine Or.inr ⟨hc, ?_⟩
            by_contra he
            exact hcase (Or.inr he)
      · have hge : CountBuffersWithProvider s0 provider ≥ BUFFER_COUNT := by omega
        simp only [Play_submit, hge, if_true] at hc
        exact Or.inl (by rw [← hb]; exact hc)

theorem step_origin (s : PulseOut) (a : Action) (s1 : PulseOut) (ev : List Event)
    (hv : a.valid s = true) (h : step s a = some (s1, ev)) :
    ∀ c ∈ s1.buffers, c ∈ s.buffers ∨
      ∃ fuel env, a = Action.play fuel env c.buffer c.provider ∧
        env.context = c.addr ∧ env.write_error = 0 := by
  cases a with
  | play fuel env buffer provider =>
    simp only [step] at h
    cases hp : Play fuel env s buffer provider with
    | none => simp [hp] at h
    | some x =>
      obtain ⟨r, s2, ev2⟩ := x
      simp only [hp, Option.map_some', Option.some.injEq, Prod.mk.injEq] at h
      obtain ⟨rfl, rfl⟩ := h
      simp only [Action.valid, List.all_eq_true, decide_eq_true_eq] at hv
      intro c hc
      rcases Play_origin _ _ _ _ _ _ _ _ hv hp c hc with h1 | ⟨rfl, he⟩
      · exact Or.inl h1
      · exact Or.inr ⟨fuel, env, rfl, rfl, he⟩
  | played d =>
    simp only [step, OnPulseBufferPlayed] at h
    cases hd : deref s.buffers d with
    | none => simp [hd] at h
    | some x =>
      simp only [hd, OnPulseBufferPlayed_alive, Option.some.injEq] at h
      intro c hc
      have := NotifyBufferCompleted_subset s x c (by rw [h]; exact hc)
      exact Or.inl this

theorem run_origin (acts : List Action) (s0 s : PulseOut) (tr : List Event)
    (hn : s0.addrs.Nodup) (hv : validRun s0 acts = true) (h : run s0 acts = some (s, tr)) :
    ∀ c ∈ s.buffers, c ∈ s0.buffers ∨
      ∃ fuel env, Action.play fuel env c.buffer c.provider ∈ acts ∧
        env.context = c.addr ∧ env.write_error = 0 := by
  induction acts generalizing s0 s tr with
  | nil =>
    simp only [run, Option.some.injEq, Prod.mk.injEq] at h
    obtain ⟨rfl, -⟩ := h
    intro c hc
    exact Or.inl hc
  | cons a rest ih =>
    simp only [run] at h
    simp only [validRun, Bool.and_eq_true] at hv
    cases hs : step s0 a with
    | none => simp [hs] at h
    | some x =>
      obtain ⟨s1, ev1⟩ := x
      simp only [hs] at h hv
      cases hr : run s1 rest with
      | none => simp [hr] at h
      | some y =>
        obtain ⟨s2, ev2⟩ := y
        simp only [hr, Option.map_some', Option.some.injEq, Prod.mk.injEq] at h
        obtain ⟨rfl, -⟩ := h
        have c1 := step_conserved s0 a s1 ev1 hn hv.1 hs
        intro c hc
        rcases ih s1 _ _ c1.1 hv.2 hr c hc with h1 | ⟨fuel, env, hm, h2, h3⟩
        · rcases step_origin s0 a s1 ev1 hv.1 hs c h1 with h4 | ⟨fuel, env, rfl, h5, h6⟩
          · exact Or.inl h4
          · exact Or.inr ⟨fuel, env, List.mem_cons_self _ _, h5, h6⟩
        · exact Or.inr ⟨fuel, env, List.mem_cons_of_mem _ hm, h2, h3⟩

/-- What an accepted `Play` leaves behind: the new context, holding the buffer
and the provider of the call, at the end of the queue and no notification;
or, when the library ran the callback inside the write, the queue as before
and one notification of that provider with that buffer. -/
theorem Play_accepted (fuel : Nat) (env : PlayEnv) (s : PulseOut) (buffer : IBuffer)
    (provider : Provider) (s1 : PulseOut) (ev : List Event)
    (hf : ∀ x ∈ s.buffers, x.addr ≠ env.context)
    (h : Play fuel env s buffer provider = some (true, s1, ev)) :
    (s1.buffers = s.buffers ++ [{ addr := env.context, buffer := buffer, provider := provider }] ∧
        notifications ev = []) ∨
      (s1.buffers = s.buffers ∧
        notifications ev = [Event.OnBufferProcessed provider buffer]) := by
  have happ : ∀ l1 l2 : List Event,
      notifications (l1 ++ l2) = notifications l1 ++ notifications l2 :=
    fun l1 l2 => List.filter_append l1 l2
  unfold Play at h
  cases hs : Play_stream fuel env.stream s buffer with
  | none => simp [hs] at h
  | some x =>
    obtain ⟨r0, s0, ev0⟩ := x
    obtain ⟨hb, -, hq⟩ := Play_stream_frame _ _ _ _ _ _ _ hs
    have hnone := notifications_of_no_queue_event ev0 hq
    cases r0 with
    | false => simp [hs] at h
    | true =>
      simp only [hs, Option.some.injEq, Prod.mk.injEq] at h
      obtain ⟨hres, rfl, rfl⟩ := h
      by_cases hcount : CountBuffersWithProvider s0 provider < BUFFER_COUNT
      · rw [Play_submit_admitted env s0 buffer provider hcount (by rw [hb]; exact hf)] at hres ⊢
        by_cases hcase : env.callback_during_write = true ∨ env.write_error ≠ 0
        · rw [if_pos hcase]
          refine Or.inr ⟨hb, ?_⟩
          rw [happ, hnone]
          simp [notifications]
        · rw [if_neg hcase]
          refine Or.inl ⟨by simp [hb], ?_⟩
          rw [happ, hnone]
          simp [notifications]
      · have hge : CountBuffersWithProvider s0 provider ≥ BUFFER_COUNT := by omega
        simp [Play_submit, hge] at hres

/-- C2. Over every run of `Play` calls and completion callbacks that the code
can execute (fresh addresses from `new`, callbacks only on contexts still
alive), started on a sink whose queued contexts are pairwise distinct: the
queued contexts stay pairwise distinct; for every provider and buffer the
notifications received plus the contexts still queued equal the submissions
made plus the contexts queued at the start, so no submission is notified more
than once; every queued context was queued at the start or was built by a
`Play` of the run from that call's buffer and provider, with a write that
reported no error; for every queued context the completion callback notifies
that provider with that buffer exactly once and removes exactly that context,
after which the context is gone and no callback on it is executable; and a
further `Play` that returns true either leaves the context of its own buffer
and provider at the end of the queue or has notified that provider once. -/
theorem exactly_once_notification (s0 : PulseOut) (acts : List Action) (s : PulseOut)
    (tr : List Event) (h0 : s0.addrs.Nodup) (hv : validRun s0 acts = true)
    (hrun : run s0 acts = some (s, tr)) :
    s.addrs.Nodup ∧
    (∀ p b, notified p b tr + queued p b s = submitted p b tr + queued p b s0) ∧
    (∀ c ∈ s.buffers, c ∈ s0.buffers ∨
      ∃ fuel env, Action.play fuel env c.buffer c.provider ∈ acts ∧
        env.context = c.addr ∧ env.write_error = 0) ∧
    (∀ c ∈ s.buffers, ∃ l1 l2, s.buffers = l1 ++ c :: l2 ∧
      OnPulseBufferPlayed s c.addr
        = some ({ s with buffers := l1 ++ l2 },
            [Event.OnBufferProcessed c.provider c.buffer]) ∧
      (∀ x ∈ l1 ++ l2, x.addr ≠ c.addr) ∧
      (Action.played c.addr).valid { s with buffers := l1 ++ l2 } = false) ∧
    (∀ (fuel : Nat) (env : PlayEnv) (buffer : IBuffer) (provider : Provider)
        (s1 : PulseOut) (ev : List Event),
      (∀ x ∈ s.buffers, x.addr ≠ env.context) →
      Play fuel env s buffer provider = some (true, s1, ev) →
      (s1.buffers
          = s.buffers ++ [{ addr := env.context, buffer := buffer, provider := provider }] ∧
        notifications ev = []) ∨
      (s1.buffers = s.buffers ∧
        notifications ev = [Event.OnBufferProcessed provider buffer])) := by
  have hc := run_conserved acts s0 s tr h0 hv hrun
  exact ⟨hc.1, hc.2, run_origin acts s0 s tr h0 hv hrun,
    fun c hcq => OnPulseBufferPlayed_queued s c hc.1 hcq,
    fun fuel env buffer provider s1 ev hf hp =>
      Play_accepted fuel env s buffer provider s1 ev hf hp⟩

/-! ## Teardown -/

theorem DeinitPulse_fields (s : PulseOut) :
    (DeinitPulse s).1 = { s with pulseStream := none, pulseContext := none,
                                 pulseMainLoop := none } := by
  obtain ⟨ml, ctx, st, rate, channels, buffers⟩ := s
  cases ml <;> cases ctx <;> cases st <;>
    simp [DeinitPulse, DeinitPulseStream, DeinitPulse_context, DeinitPulse_mainloop]

/-- C9. For every sink, `DeinitPulse` (which is all the destructor does)
makes exactly the calls of the stream step, then those of the context step,
then those of the main-loop step, each step present only when its handle is
set; the stream and context calls are made between a lock and an unlock of
the main loop, the stop and free with no lock held; no handle is passed to a
call after the call that released it; and all three handles are null
afterwards, the queue and the recorded format being untouched. -/
theorem DeinitPulse_teardown_order (s : PulseOut) :
    destructor s = DeinitPulse s ∧
    (DeinitPulse s).2 = teardown_stream s ++ teardown_context s ++ teardown_mainloop s ∧
    lockDiscipline 0 (DeinitPulse s).2 = true ∧
    noUseAfterRelease (DeinitPulse s).2 = true ∧
    (DeinitPulse s).1 = { s with pulseStream := none, pulseContext := none,
                                 pulseMainLoop := none } := by
  obtain ⟨ml, ctx, st, rate, channels, buffers⟩ := s
  refine ⟨by simp [destructor, Stop], ?_⟩
  cases ml <;> cases ctx <;> cases st <;>
    simp [DeinitPulse, DeinitPulseStream, DeinitPulse_context, DeinitPulse_mainloop,
      teardown_stream, teardown_context, teardown_mainloop, lockDiscipline,
      noUseAfterRelease, Event.releases, Event.uses]

/-! ## waitForCompletion against its specification -/

theorem waitForCompletion_loop_never (state : Nat) (op : Handle) (loop : Option Handle)
    (poll : Nat → Nat) (h : ∀ k, state ≠ poll k) (fuel k : Nat) :
    waitForCompletion_loop state op loop poll fuel k = none := by
  induction fuel generalizing k with
  | zero => rfl
  | succ n ih =>
    rw [waitForCompletion_loop, if_neg (h k), if_pos (by rfl), ih]
    rfl

/-- C8. `waitForCompletion` is not a poll-until-not-running.  With the local
`state` holding 0, an operation that is still running is released without any
wait and false is returned, where the specified function waits twice and
returns true.  And whatever value `state` holds, there is an operation on
which the function and the specified one differ for every amount of fuel. -/
theorem waitForCompletion_differs_from_spec :
    (waitForCompletion 10 PA_OPERATION_RUNNING (some 3) (some 1) example_poll
        = some (false, [Event.operation_get_state 3 PA_OPERATION_RUNNING,
            Event.operation_unref 3]) ∧
      waitForCompletion_spec 10 (some 3) (some 1) example_poll
        = some (true, [Event.operation_get_state 3 PA_OPERATION_RUNNING,
            Event.mainloop_wait (some 1),
            Event.operation_get_state 3 PA_OPERATION_RUNNING,
            Event.mainloop_wait (some 1),
            Event.operation_get_state 3 PA_OPERATION_DONE,
            Event.operation_unref 3])) ∧
    ∀ state : Nat, ∃ poll : Nat → Nat, ∀ fuel : Nat,
      waitForCompletion (fuel + 3) state (some 3) (some 1) poll
        ≠ waitForCompletion_spec (fuel + 3) (some 3) (some 1) poll := by
  refine ⟨⟨by decide, by decide⟩, ?_⟩
  intro state
  by_cases h0 : state = 0
  · subst h0
    refine ⟨example_poll, fun fuel => ?_⟩
    simp [waitForCompletion, waitForCompletion_spec, waitForCompletion_loop,
      waitForCompletion_spec_loop, example_poll, PA_OPERATION_RUNNING, PA_OPERATION_DONE]
  · by_cases h1 : state = 1
    · subst h1
      refine ⟨fun _ => PA_OPERATION_CANCELLED, fun fuel => ?_⟩
      have hn := waitForCompletion_loop_never 1 3 (some 1) (fun _ => PA_OPERATION_CANCELLED)
        (fun _ => by simp [PA_OPERATION_CANCELLED]) (fuel + 3) 0
      rw [waitForCompletion, hn]
      simp [waitForCompletion_spec, waitForCompletion_spec_loop,
        PA_OPERATION_RUNNING, PA_OPERATION_CANCELLED]
    · refine ⟨fun _ => PA_OPERATION_DONE, fun fuel => ?_⟩
      have hn := waitForCompletion_loop_never state 3 (some 1) (fun _ => PA_OPERATION_DONE)
        (fun _ => by simpa [PA_OPERATION_DONE] using h1) (fuel + 3) 0
      rw [waitForCompletion, hn]
      simp [waitForCompletion_spec, waitForCompletion_spec_loop,
        PA_OPERATION_RUNNING, PA_OPERATION_DONE]

/-! ## Stream set-up failure -/

/-- C5. On the freshly constructed sink, a `Play` whose stream is created but
whose connect-for-playback reports an error, or whose stream is found failed
after the wait, returns false with nothing queued or submitted, and leaves
the created stream in `pulseStream` with the format recorded. -/
theorem Play_keeps_stream_on_setup_failure :
    Play 5 (example_play_env example_stream_connect_error 500 0) example_sink example_buffer 1
      = some (false,
          { pulseMainLoop := some 1, pulseContext := some 2, pulseStream := some 7,
            rate := 44100, channels := 2, buffers := [] },
          [Event.mainloop_lock (some 1),
           Event.stream_new (some 2) 44100 2 (some 7),
           Event.stream_set_state_callback 7,
           Event.stream_connect_playback 7 (-1),
           Event.mainloop_unlock (some 1)]) ∧
    Play 5 (example_play_env example_stream_not_ready 500 0) example_sink example_buffer 1
      = some (false,
          { pulseMainLoop := some 1, pulseContext := some 2, pulseStream := some 7,
            rate := 44100, channels := 2, buffers := [] },
          [Event.mainloop_lock (some 1),
           Event.stream_new (some 2) 44100 2 (some 7),
           Event.stream_set_state_callback 7,
           Event.stream_connect_playback 7 0,
           Event.mainloop_wait (some 1),
           Event.stream_get_state 7 PA_STREAM_FAILED,
           Event.mainloop_unlock (some 1)]) := by
  constructor <;> decide

/-- C4. From a freshly constructed sink, a `Play` whose stream set-up fails at
connect-for-playback followed by a `Play` of the same format: the second call
returns true and submits the buffer on stream 7, which was never connected
and never seen ready. -/
theorem Play_submits_on_stream_never_ready :
    (constructor 10 example_context_env).map (fun r => r.1) = some example_sink ∧
    Play 5 (example_play_env example_stream_connect_error 500 0) example_sink example_buffer 1
      = some (false,
          { pulseMainLoop := some 1, pulseContext := some 2, pulseStream := some 7,
            rate := 44100, channels := 2, buffers := [] },
          [Event.mainloop_lock (some 1),
           Event.stream_new (some 2) 44100 2 (some 7),
           Event.stream_set_state_callback 7,
           Event.stream_connect_playback 7 (-1),
           Event.mainloop_unlock (some 1)]) ∧
    Play 5 (example_play_env example_stream_ok 501 0)
        { pulseMainLoop := some 1, pulseContext := some 2, pulseStream := some 7,
          rate := 44100, channels := 2, buffers := [] } example_buffer2 1
      = some (true,
          { pulseMainLoop := some 1, pulseContext := some 2, pulseStream := some 7,
            rate := 44100, channels := 2,
            buffers := [{ addr := 501, buffer := example_buffer2, provider := 1 }] },
          [Event.mainloop_lock (some 1),
           Event.stream_write_ext_free (some 7)
             { addr := 501, buffer := example_buffer2, provider := 1 } 0,
           Event.mainloop_unlock (some 1)]) := by
  refine ⟨by decide, by decide, by decide⟩

/-! ## Construction -/

/-- C10. When `pa_threaded_mainloop_new` returns null, construction does not
stop: it asks the null main loop for its api, locks it, creates and connects
a context, and, the context becoming ready, `InitPulseEventLoopAndContext`
returns true, so that the sink keeps a context and has no main loop. -/
theorem constructor_without_mainloop :
    InitPulseEventLoopAndContext 10 example_context_env_no_mainloop PulseOut.initial
      = some (true,
          { pulseMainLoop := none, pulseContext := some 2, pulseStream := none,
            rate := 0, channels := 0, buffers := [] },
          [Event.mainloop_new none,
           Event.mainloop_get_api none,
           Event.mainloop_lock none,
           Event.context_new (some 2),
           Event.context_set_state_callback 2,
           Event.context_connect 2 0,
           Event.context_get_state 2 PA_CONTEXT_CONNECTING,
           Event.mainloop_wait none,
           Event.context_get_state 2 PA_CONTEXT_CONNECTING,
           Event.mainloop_wait none,
           Event.context_get_state 2 PA_CONTEXT_READY,
           Event.mainloop_unlock none]) ∧
    (constructor 10 example_context_env_no_mainloop).map (fun r => r.1)
      = some { pulseMainLoop := none, pulseContext := some 2, pulseStream := none,
               rate := 0, channels := 0, buffers := [] } := by
  constructor <;> decide

/-! ## What the failure paths do guarantee -/

/-- A `Play` on a sink without a stream whose stream set-up fails returns
false, queues nothing and makes no submission or notification; the stream
handle afterwards is whatever `pa_stream_new` returned, so it is null only
when the creation itself failed. -/
theorem Play_setup_failure (fuel : Nat) (env : PlayEnv) (s : PulseOut) (buffer : IBuffer)
    (provider : Provider) (hs : s.pulseStream = none)
    (hfail : env.stream.stream_new = none ∨ env.stream.connect_error ≠ 0 ∨
      env.stream.state_after_wait ≠ PA_STREAM_READY) :
    ∃ s1 ev, Play fuel env s buffer provider = some (false, s1, ev) ∧
      s1.buffers = s.buffers ∧ s1.pulseStream = env.stream.stream_new ∧
      ∀ e ∈ ev, e.isQueueEvent = false := by
  have hinit : ∃ ev, InitPulseStream fuel env.stream s buffer.SampleRate buffer.Channels
      = some (false, { s with rate := buffer.SampleRate % 4294967296,
                              channels := buffer.Channels % 256,
                              pulseStream := env.stream.stream_new }, ev) := by
    unfold InitPulseStream
    cases hn : env.stream.stream_new with
    | none => exact ⟨_, rfl⟩
    | some st =>
      by_cases hc : env.stream.connect_error = 0
      · have hr : env.stream.state_after_wait ≠ PA_STREAM_READY := by
          rcases hfail with h | h | h
          · rw [hn] at h; cases h
          · exact absurd hc h
          · exact h
        simp only [hc, if_true, hr, if_false]
        exact ⟨_, rfl⟩
      · simp only [hc, if_false]
        exact ⟨_, rfl⟩
  obtain ⟨ev, hev⟩ := hinit
  have hps : Play_stream fuel env.stream s buffer
      = some (false, { s with rate := buffer.SampleRate % 4294967296,
                              channels := buffer.Channels % 256,
                              pulseStream := env.stream.stream_new }, ev) := by
    unfold Play_stream
    rw [if_pos (Or.inl hs), if_neg (by simp [hs])]
    have hd : DeinitPulseStream s = (s, []) := by simp [DeinitPulseStream, hs]
    rw [hd]
    simp [hev]
  refine ⟨{ s with rate := buffer.SampleRate % 4294967296,
                   channels := buffer.Channels % 256,
                   pulseStream := env.stream.stream_new }, ev, by simp [Play, hps], rfl, rfl, ?_⟩
  exact (Play_stream_frame _ _ _ _ _ _ _ hps).2.2

/-- When `InitPulseEventLoopAndContext` returns false, `InitPulse` leaves the
main loop, the context and the stream all null. -/
theorem InitPulse_failure_uninitialized (fuel : Nat) (env : ContextEnv) (s s1 : PulseOut)
    (ev : List Event) (h : InitPulseEventLoopAndContext fuel env s = some (false, s1, ev)) :
    InitPulse fuel env s
      = some ({ s1 with pulseStream := none, pulseContext := none, pulseMainLoop := none },
          ev ++ (DeinitPulse s1).2) := by
  simp [InitPulse, h, DeinitPulse_fields s1]

theorem InitPulseEventLoopAndContext_loop_ready (c : Handle) (loop : Option Handle)
    (poll : Nat → pa_context_state_t) (fuel k : Nat) (e : Bool) (ev : List Event)
    (h : InitPulseEventLoopAndContext_loop c loop poll fuel k = some (e, true, ev)) :
    Event.context_get_state c PA_CONTEXT_READY ∈ ev := by
  induction fuel generalizing k e ev with
  | zero => simp [InitPulseEventLoopAndContext_loop] at h
  | succ n ih =>
    rw [InitPulseEventLoopAndContext_loop] at h
    by_cases h1 : poll k = PA_CONTEXT_READY
    · rw [if_pos h1] at h
      simp only [Option.some.injEq, Prod.mk.injEq] at h
      obtain ⟨-, -, rfl⟩ := h
      simp [h1]
    · rw [if_neg h1] at h
      by_cases h2 : (!PA_CONTEXT_IS_GOOD (poll k)) = true
      · rw [if_pos h2] at h
        simp at h
      · rw [if_neg h2] at h
        cases hr : InitPulseEventLoopAndContext_loop c loop poll n (k + 1) with
        | none => simp [hr] at h
        | some x =>
          obtain ⟨e1, c1, ev1⟩ := x
          simp only [hr, Option.map_some', Option.some.injEq, Prod.mk.injEq] at h
          obtain ⟨-, rfl, rfl⟩ := h
          exact List.mem_cons_of_mem _ (List.mem_cons_of_mem _ (ih (k + 1) _ ev1 hr))

theorem InitPulseEventLoopAndContext_context_ready (fuel : Nat) (env : ContextEnv)
    (s s1 : PulseOut) (ev : List Event)
    (h : InitPulseEventLoopAndContext_context fuel env s = some (true, s1, ev)) :
    ∃ c, s1.pulseContext = some c ∧ Event.context_get_state c PA_CONTEXT_READY ∈ ev := by
  unfold InitPulseEventLoopAndContext_context at h
  cases hn : env.context_new with
  | none => simp [hn] at h
  | some c =>
    simp only [hn] at h
    by_cases hc : env.connect_error ≠ 0
    · rw [if_pos hc] at h
      simp at h
    · rw [if_neg hc] at h
      cases hl : InitPulseEventLoopAndContext_loop c s.pulseMainLoop env.poll fuel 0 with
      | none => simp [hl] at h
      | some x =>
        obtain ⟨e1, c1, ev1⟩ := x
        simp only [hl, Option.some.injEq, Prod.mk.injEq, Bool.and_eq_true,
          Bool.not_eq_true'] at h
        obtain ⟨⟨rfl, -⟩, rfl, rfl⟩ := h
        refine ⟨c, rfl, ?_⟩
        have := InitPulseEventLoopAndContext_loop_ready _ _ _ _ _ _ _ hl
        simp [this]

/-- `InitPulseEventLoopAndContext` returns true only with a context whose
state was read as ready. -/
theorem InitPulseEventLoopAndContext_true_ready (fuel : Nat) (env : ContextEnv)
    (s s1 : PulseOut) (ev : List Event)
    (h : InitPulseEventLoopAndContext fuel env s = some (true, s1, ev)) :
    ∃ c, s1.pulseContext = some c ∧ Event.context_get_state c PA_CONTEXT_READY ∈ ev := by
  unfold InitPulseEventLoopAndContext at h
  cases hm : env.mainloop_new with
  | none =>
    simp only [hm] at h
    cases hr : InitPulseEventLoopAndContext_context fuel env { s with pulseMainLoop := none } with
    | none => simp [hr] at h
    | some x =>
      obtain ⟨r, s2, ev2⟩ := x
      simp only [hr, Option.some.injEq, Prod.mk.injEq] at h
      obtain ⟨rfl, rfl, rfl⟩ := h
      obtain ⟨c, h1, h2⟩ := InitPulseEventLoopAndContext_context_ready _ _ _ _ _ hr
      exact ⟨c, h1, List.mem_cons_of_mem _ h2⟩
  | some m =>
    simp only [hm] at h
    by_cases he : env.start_error ≠ 0
    · rw [if_pos he] at h
      simp at h
    · rw [if_neg he] at h
      cases hr : InitPulseEventLoopAndContext_context fuel env
          { s with pulseMainLoop := some m } with
      | none => simp [hr] at h
      | some x =>
        obtain ⟨r, s2, ev2⟩ := x
        simp only [hr, Option.some.injEq, Prod.mk.injEq] at h
        obtain ⟨rfl, rfl, rfl⟩ := h
        obtain ⟨c, h1, h2⟩ := InitPulseEventLoopAndContext_context_ready _ _ _ _ _ hr
        exact ⟨c, h1, List.mem_cons_of_mem _ (List.mem_cons_of_mem _ h2)⟩

/-! ## Runs on an established stream never block -/

theorem NotifyBufferCompleted_stream (s : PulseOut) (c : BufferContext) :
    (NotifyBufferCompleted s c).1.pulseStream = s.pulseStream := by
  unfold NotifyBufferCompleted RemoveBufferFromQueue
  cases RemoveBufferFromQueue_loop c.addr s.buffers <;> rfl

theorem Play_submit_stream (env : PlayEnv) (s : PulseOut) (buffer : IBuffer)
    (provider : Provider) :
    (Play_submit env s buffer provider).2.1.pulseStream = s.pulseStream := by
  unfold Play_submit
  by_cases hge : CountBuffersWithProvider s provider ≥ BUFFER_COUNT
  · rw [if_pos hge]
  · rw [if_neg hge]
    by_cases he : env.write_error ≠ 0 <;> by_cases hcb : env.callback_during_write = true <;>
      simp [he, hcb, OnPulseBufferPlayed_alive, NotifyBufferCompleted_stream]

/-- Once the sink has a stream, `Play` returns for every amount of fuel and
every environment, and the stream stays. -/
theorem Play_returns_with_stream (fuel : Nat) (env : PlayEnv) (s : PulseOut) (buffer : IBuffer)
    (provider : Provider) (st : Handle) (hs : s.pulseStream = some st) :
    ∃ r, Play fuel env s buffer provider = some r ∧ r.2.1.pulseStream = some st := by
  by_cases hd : s.rate ≠ buffer.SampleRate ∨ s.channels ≠ buffer.Channels
  · refine ⟨(false, s, []), ?_, hs⟩
    simp [Play, Play_stream_other_format fuel env.stream s buffer st hs hd]
  · have hr : s.rate = buffer.SampleRate := by
      by_contra h; exact hd (Or.inl h)
    have hc : s.channels = buffer.Channels := by
      by_contra h; exact hd (Or.inr h)
    refine ⟨((Play_submit env s buffer provider).1, (Play_submit env s buffer provider).2.1,
      (Play_submit env s buffer provider).2.2), ?_, ?_⟩
    · simp [Play, Play_stream_same_format fuel env.stream s buffer st hs hr hc]
    · simp [Play_submit_stream, hs]

/-- An executable run on a sink that has a stream always reaches a final
state. -/
theorem run_returns_with_stream (acts : List Action) (s : PulseOut) (st : Handle)
    (hs : s.pulseStream = some st) (hv : validRun s acts = true) :
    ∃ r, run s acts = some r := by
  induction acts generalizing s with
  | nil => exact ⟨_, rfl⟩
  | cons a rest ih =>
    simp only [validRun, Bool.and_eq_true] at hv
    have hstep : ∃ r, step s a = some r ∧ r.1.pulseStream = some st := by
      cases a with
      | play fuel env buffer provider =>
        obtain ⟨r, hr, hst⟩ := Play_returns_with_stream fuel env s buffer provider st hs
        exact ⟨(r.2.1, r.2.2), by simp [step, hr], hst⟩
      | played d =>
        have hva := hv.1
        simp only [Action.valid, List.any_eq_true, decide_eq_true_eq] at hva
        obtain ⟨x, hx, hxa⟩ := hva
        cases hd : deref s.buffers d with
        | none => exact absurd hxa ((deref_none s.buffers d).mp hd x hx)
        | some c =>
          exact ⟨OnPulseBufferPlayed_alive s c, by simp [step, OnPulseBufferPlayed, hd], by
            simp [OnPulseBufferPlayed_alive, NotifyBufferCompleted_stream, hs]⟩
    obtain ⟨r, hr, hst⟩ := hstep
    have hv2 : validRun r.1 rest = true := by
      have := hv.2
      simpa [hr] using this
    obtain ⟨r2, hr2⟩ := ih r.1 hst hv2
    exact ⟨(r2.1, r.2 ++ r2.2), by simp [run, hr, hr2]⟩

/-! ## Instances on concrete sinks -/

/-- With eight contexts of provider 1 and one of provider 2 queued, a ninth
`Play` for provider 1 is rejected and a `Play` for provider 2 is accepted. -/
theorem Play_admission_witness :
    (example_sink_full.pulseStream = some 7 ∧
      example_sink_full.rate = example_buffer.SampleRate ∧
      example_sink_full.channels = example_buffer.Channels ∧
      (example_play_env example_stream_ok 508 0).write_error = 0 ∧
      CountBuffersWithProvider example_sink_full 1 = 8 ∧
      CountBuffersWithProvider example_sink_full 2 = 1) ∧
    (CountBuffersWithProvider example_sink_full 1
        = (example_sink_full.buffers.filter (fun c => c.provider = 1)).length ∧
      ∃ s1 ev, Play 0 (example_play_env example_stream_ok 508 0) example_sink_full
            example_buffer 1
          = some (decide (CountBuffersWithProvider example_sink_full 1 < 8), s1, ev) ∧
        (8 ≤ CountBuffersWithProvider example_sink_full 1 → s1 = example_sink_full ∧ ev = []) ∧
        (CountBuffersWithProvider example_sink_full 1 < 8 →
          Event.stream_write_ext_free (some 7)
            { addr := (example_play_env example_stream_ok 508 0).context,
              buffer := example_buffer, provider := 1 } 0 ∈ ev)) ∧
    (CountBuffersWithProvider example_sink_full 2
        = (example_sink_full.buffers.filter (fun c => c.provider = 2)).length ∧
      ∃ s1 ev, Play 0 (example_play_env example_stream_ok 508 0) example_sink_full
            example_buffer 2
          = some (decide (CountBuffersWithProvider example_sink_full 2 < 8), s1, ev) ∧
        (8 ≤ CountBuffersWithProvider example_sink_full 2 → s1 = example_sink_full ∧ ev = []) ∧
        (CountBuffersWithProvider example_sink_full 2 < 8 →
          Event.stream_write_ext_free (some 7)
            { addr := (example_play_env example_stream_ok 508 0).context,
              buffer := example_buffer, provider := 2 } 0 ∈ ev)) :=
  ⟨⟨rfl, rfl, rfl, rfl, by decide, by decide⟩,
   Play_admission 0 (example_play_env example_stream_ok 508 0) example_sink_full
     example_buffer 1 7 rfl rfl rfl rfl,
   Play_admission 0 (example_play_env example_stream_ok 508 0) example_sink_full
     example_buffer 2 7 rfl rfl rfl rfl⟩

/-- The run `example_actions` from the constructed sink satisfies the
hypotheses of the exactly-once theorem, and so its conclusions. -/
theorem exactly_once_notification_witness :
    (example_sink.addrs.Nodup ∧
      validRun example_sink example_actions = true ∧
      run example_sink example_actions = some (example_final.1, example_final.2) ∧
      example_final.1.buffers = [{ addr := 501, buffer := example_buffer2, provider := 1 }] ∧
      notified 1 example_buffer example_final.2 = 1 ∧
      notified 2 example_buffer example_final.2 = 1) ∧
    (example_final.1.addrs.Nodup ∧
      (∀ p b, notified p b example_final.2 + queued p b example_final.1
        = submitted p b example_final.2 + queued p b example_sink) ∧
      (∀ c ∈ example_final.1.buffers, c ∈ example_sink.buffers ∨
        ∃ fuel env, Action.play fuel env c.buffer c.provider ∈ example_actions ∧
          env.context = c.addr ∧ env.write_error = 0) ∧
      (∀ c ∈ example_final.1.buffers, ∃ l1 l2, example_final.1.buffers = l1 ++ c :: l2 ∧
        OnPulseBufferPlayed example_final.1 c.addr
          = some ({ example_final.1 with buffers := l1 ++ l2 },
              [Event.OnBufferProcessed c.provider c.buffer]) ∧
        (∀ x ∈ l1 ++ l2, x.addr ≠ c.addr) ∧
        (Action.played c.addr).valid { example_final.1 with buffers := l1 ++ l2 } = false) ∧
      (∀ (fuel : Nat) (env : PlayEnv) (buffer : IBuffer) (provider : Provider)
          (s1 : PulseOut) (ev : List Event),
        (∀ x ∈ example_final.1.buffers, x.addr ≠ env.context) →
        Play fuel env example_final.1 buffer provider = some (true, s1, ev) →
        (s1.buffers = example_final.1.buffers
            ++ [{ addr := env.context, buffer := buffer, provider := provider }] ∧
          notifications ev = []) ∨
        (s1.buffers = example_final.1.buffers ∧
          notifications ev = [Event.OnBufferProcessed provider buffer]))) :=
  ⟨⟨by decide, by decide, by decide, by decide, by decide, by decide⟩,
   exactly_once_notification example_sink example_actions example_final.1 example_final.2
     (by decide) (by decide) (by decide)⟩

/-- A write that fails on the full sink, for provider 2: `Play` returns
false, the queue is as before and provider 2 is notified once. -/
theorem Play_write_error_witness :
    (Play_stream 0 (example_play_env example_stream_ok 508 (-3)).stream example_sink_full
        example_buffer = some (true, example_sink_full, []) ∧
      CountBuffersWithProvider example_sink_full 2 < BUFFER_COUNT ∧
      (example_play_env example_stream_ok 508 (-3)).write_error ≠ 0 ∧
      ∀ c ∈ example_sink_full.buffers,
        c.addr ≠ (example_play_env example_stream_ok 508 (-3)).context) ∧
    ∃ s2 ev, Play 0 (example_play_env example_stream_ok 508 (-3)) example_sink_full
          example_buffer 2 = some (false, s2, ev) ∧
      s2.buffers = example_sink_full.buffers ∧
      notifications ev = [Event.OnBufferProcessed 2 example_buffer] :=
  ⟨⟨by decide, by decide, by decide, by decide⟩,
   Play_write_error 0 (example_play_env example_stream_ok 508 (-3)) example_sink_full
     example_buffer 2 example_sink_full [] (by decide) (by decide) (by decide) (by decide)⟩

/-- A buffer at 48000 Hz on the sink whose stream runs at 44100 Hz. -/
theorem Play_format_mismatch_witness :
    (example_sink_full.pulseStream = some 7 ∧
      (example_sink_full.rate ≠ example_buffer_48k.SampleRate ∨
        example_sink_full.channels ≠ example_buffer_48k.Channels)) ∧
    Play 0 (example_play_env example_stream_ok 508 0) example_sink_full example_buffer_48k 2
      = some (false, example_sink_full, []) :=
  ⟨⟨rfl, Or.inl (by decide)⟩,
   (Play_format_mismatch 0 (example_play_env example_stream_ok 508 0) example_sink_full
     example_buffer_48k 2 7 rfl (Or.inl (by decide))).1⟩

/-- Removing the context at address 600 from the full sink twice. -/
theorem RemoveBufferFromQueue_by_identity_witness :
    (example_sink_full.addrs.Nodup ∧
      (RemoveBufferFromQueue example_sink_full 600).1 = true ∧
      (RemoveBufferFromQueue example_sink_full 600).2.buffers.length = 8) ∧
    RemoveBufferFromQueue (RemoveBufferFromQueue example_sink_full 600).2 600
      = (false, (RemoveBufferFromQueue example_sink_full 600).2) :=
  ⟨⟨by decide, by decide, by decide⟩,
   (RemoveBufferFromQueue_by_identity example_sink_full 600).2.2.2 (by decide)⟩

end Musikcube
